import Mathlib

/-!
# Verification of the menu-scraping engine (`scrap_menu.py`)

Shallow embedding of the menu-discovery engine: the link scorer, the
candidate generator (`discover_menu_links`, `build_guessed_menu_pages`),
the page classifier (`is_menu_like`, `looks_like_error_page`), the resume
check (`existing_menu_info`) and the site processor (`process_restaurant`).

Modelling conventions:
* Python strings are Lean `String`s, but all primitive string operations
  (`lower`, `strip`, substring test, `endswith`, slicing, …) are
  re-implemented over the underlying character list so that every
  definition evaluates inside the kernel.
* Absolute URLs are modelled by the record `Url` (scheme, host, path);
  `urllib.parse.urljoin` on anchor hrefs is an explicit parameter
  (`Env.urljoin`), since the engine's logic is independent of RFC 3986
  resolution details.  `urlparse(u).hostname` is `Url.host` and
  `urlparse(u).path` is `Url.path`.
* A fetched HTML document is modelled by `Html`: its anchor list plus the
  quantities the classifier extracts from the rendered text
  (`len(PRICE_RE.findall(text))`, `len(CURRENCY_RE.findall(text))`, the
  number of `CATEGORY_KEYWORDS` occurring in the text, and the two boolean
  error-page signals computed from the title / robots meta tag).
* Network and filesystem effects are oracles in `Env`; the processor
  returns, besides the Python result dict (`SiteResult`), the list of
  network requests it issued (`NetEvent`) and the list of filesystem
  writes it performed (`FsWrite`).  A failing document write (the
  `except` branches of the save blocks) is modelled as leaving no file;
  the metadata write is logged as an attempt carrying its success flag.
-/

/-- Characters removed by Python's `str.strip()`. -/
def is_space (c : Char) : Bool :=
  c == ' ' || c == '\t' || c == '\n' || c == '\r' || c == '\x0b' || c == '\x0c'

/-- Python `s.lower()` (ASCII letters, which is all the engine's tables use). -/
def lower_str (s : String) : String := String.mk (s.data.map Char.toLower)

/-- Python `s.strip()`. -/
def trim_str (s : String) : String :=
  String.mk (((s.data.dropWhile is_space).reverse.dropWhile is_space).reverse)

/-- Python `s[:n]` (character slicing). -/
def take_str (n : Nat) (s : String) : String := String.mk (s.data.take n)

/-- Is `n` a contiguous sublist of the given list? -/
def infix_of (n : List Char) : List Char → Bool
  | [] => n.isEmpty
  | c :: rest => n.isPrefixOf (c :: rest) || infix_of n rest

/-- Python `needle in hay` on strings. -/
def contains_sub (hay needle : String) : Bool := infix_of needle.data hay.data

/-- Python `s.endswith(suf)`. -/
def ends_with (s suf : String) : Bool := suf.data.isSuffixOf s.data

/-- Python `s.startswith(pre)`. -/
def starts_with (s pre : String) : Bool := pre.data.isPrefixOf s.data

/-- Python `s.replace("-", " ")`. -/
def replace_dash_space (s : String) : String :=
  String.mk (s.data.map (fun c => if c == '-' then ' ' else c))

/-- Python `s.strip(ch)` for a single strip character. -/
def strip_char (ch : Char) (s : String) : String :=
  String.mk (((s.data.dropWhile (fun c => c == ch)).reverse.dropWhile
    (fun c => c == ch)).reverse)

/-- An absolute URL: `urlparse` scheme, hostname and path. -/
structure Url where
  scheme : String
  host : String
  path : String
  deriving DecidableEq

/-- `f"{scheme}://{host}{path}"`, used when URLs are interpolated into error tags. -/
def url_str (u : Url) : String := u.scheme ++ "://" ++ u.host ++ u.path

/-- One `<a>` element of the homepage: its `href` attribute (possibly absent)
and its rendered text `a.get_text(" ", strip=True)`. -/
structure Anchor where
  href : Option String
  text : String
  deriving DecidableEq

/-- A fetched HTML document, reduced to the features the engine reads:
its anchors and the classifier counts extracted from the visible text.
`priceHits` abstracts `len(PRICE_RE.findall(text))`, `currencyHits`
abstracts `len(CURRENCY_RE.findall(text))`, `catHits` abstracts
`sum(1 for kw in CATEGORY_KEYWORDS if kw in text_lower)`.
`titleErrorHint` abstracts the title containing one of
`"404" / "page not found" / "not found" / "error"`, and
`noindexMissingPhrase` abstracts a `noindex` robots meta tag combined with
a page-missing phrase in the text (`looks_like_error_page`, lines 316-331). -/
structure Html where
  anchors : List Anchor
  priceHits : Nat
  currencyHits : Nat
  catHits : Nat
  titleErrorHint : Bool
  noindexMissingPhrase : Bool
  deriving DecidableEq

/-- `MenuPage` dataclass.  The mutable bookkeeping fields
(`content_type`, `status_code`, `is_menu_like`) are set and read only
inside the per-candidate loop body; they are modelled as locals there. -/
structure MenuPage where
  url : Url
  label : String
  score : Int
  guessed : Bool
  deriving DecidableEq

/-- `Restaurant` dataclass.  The website string, when present, is carried
already parsed and normalized (`normalize_url` merely prefixes a scheme). -/
structure Restaurant where
  uuid : String
  slug : String
  name : String
  website : Option Url
  deriving DecidableEq

/-- One entry of `result["saved_files"]` / `metadata.json`'s `saved_files`. -/
structure SavedFile where
  url : Option Url
  file : String
  status : Option Int
  content_type : Option String
  is_menu_like : Bool
  deriving DecidableEq

/-- The per-restaurant result dict built by `process_restaurant`.
A fresh result has no `"skipped"` key, which reads back as falsy;
we store `skipped := false` for it. -/
structure SiteResult where
  uuid : String
  slug : String
  name : String
  website : Option Url
  found : Bool
  saved_files : List SavedFile
  errors : List String
  skipped : Bool
  deriving DecidableEq

/-- A parsed `metadata.json`.  Every field is optional: `meta.get(...)`
falls back to a default when the key is missing. -/
structure Meta where
  uuid : Option String
  name : Option String
  website : Option (Option Url)
  timestamp : Option String
  found : Option Bool
  saved_files : Option (List SavedFile)
  errors : Option (List String)
  deriving DecidableEq

/-- State of `metadata.json` in the output directory: missing file,
present but failing to parse (the `except` of `existing_menu_info`),
or parsed. -/
inductive MetaFile where
  | absent
  | broken
  | parsed (m : Meta)
  deriving DecidableEq

/-- One entry of `os.listdir(out_dir)` with its `os.path.isfile` status. -/
structure DirEntry where
  name : String
  isFile : Bool
  deriving DecidableEq

/-- The restaurant's output directory as `existing_menu_info` observes it. -/
structure DirState where
  isDir : Bool
  metaFile : MetaFile
  entries : List DirEntry
  deriving DecidableEq

/-- A network request issued by the processor: a `robots.txt` download,
a page fetch (`fetch_text`), or the PDF re-download (`client.get`). -/
inductive NetEvent where
  | robots (host : String)
  | page (url : Url)
  | pdfGet (url : Url)
  deriving DecidableEq

/-- A filesystem effect: `ensure_dir`, a successfully written document,
or the metadata dump attempt with its success flag. -/
inductive FsWrite where
  | mkdir
  | doc (name : String)
  | meta (m : Meta) (ok : Bool)
  deriving DecidableEq

/-- External effect oracles: robots permissions (`rp.can_fetch`),
`fetch_text`'s result per URL, write success of the document and metadata
dumps, `urljoin` against the homepage URL, the run timestamp and the
exception texts interpolated into `write_failed` tags. -/
structure Env where
  robotsAllowed : Url → Bool
  fetch : Url → Option Html × Option String × Option Int
  pdfSaveOk : Url → Bool
  htmlSaveOk : Url → Bool
  metaSaveOk : Bool
  timestamp : String
  urljoin : Url → String → Url
  errMsg : Url → String
  metaErrMsg : String

/-- `EXTERNAL_MENU_HOSTS` (source lines 60-63). -/
def EXTERNAL_MENU_HOSTS : List String :=
  ["toasttab.com", "clover.com", "square.site", "ubereats.com", "doordash.com",
   "grubhub.com", "opentable.com", "resy.com", "tock.com", "olo.com"]

/-- `POSITIVE_MENU_HINTS` (source lines 51-54). -/
def POSITIVE_MENU_HINTS : List String :=
  ["menu", "menus", "our menu", "food", "order", "order online",
   "lunch", "dinner", "brunch", "drinks", "beverages", "happy hour"]

/-- `NEGATIVE_HINTS` (source lines 55-58). -/
def NEGATIVE_HINTS : List String :=
  ["reservations", "reservation", "gift", "careers", "jobs", "press",
   "gallery", "photos", "contact", "privacy", "terms", "accessibility"]

/-- `CATEGORY_KEYWORDS` (source lines 46-50); `Html.catHits` abstracts how
many of these occur in the page text. -/
def CATEGORY_KEYWORDS : List String :=
  ["appetizer", "appetizers", "starters", "sides", "entrees", "mains", "main", "pasta",
   "pizzas", "pizza", "desserts", "brunch", "lunch", "dinner", "drinks", "beverages",
   "beverage", "wine", "cocktails", "beer", "kids", "salads", "soup", "soups"]

/-- `COMMON_MENU_PATHS` (source lines 65-157). -/
def COMMON_MENU_PATHS : List String :=
  ["/menu", "/menus", "/our-menu", "/our-menus", "/food-menu", "/food-menus",
   "/dinner-menu", "/lunch-menu", "/brunch-menu", "/breakfast-menu", "/kids-menu",
   "/kid-menu", "/kids", "/drinks-menu", "/drink-menu", "/beverages-menu",
   "/beverage-menu", "/wine-menu", "/dessert-menu", "/specials", "/daily-specials",
   "/today-specials", "/buffet-menu", "/takeaway-menu", "/take-out-menu",
   "/delivery-menu", "/order-online/menu", "/order/menu",
   "/menu.html", "/menus.html", "/our-menu.html", "/food-menu.html",
   "/lunch-menu.html", "/dinner-menu.html",
   "/menu.pdf", "/menus.pdf", "/our-menu.pdf", "/food-menu.pdf", "/dinner-menu.pdf",
   "/lunch-menu.pdf", "/brunch-menu.pdf", "/breakfast-menu.pdf", "/kids-menu.pdf",
   "/drinks-menu.pdf", "/drink-menu.pdf", "/takeaway-menu.pdf", "/take-out-menu.pdf",
   "/dessert-menu.pdf", "/wine-menu.pdf", "/specials.pdf", "/buffet-menu.pdf",
   "/wp-content/uploads/menu.pdf", "/wp-content/uploads/menus.pdf",
   "/wp-content/uploads/2023/menu.pdf", "/wp-content/uploads/2024/menu.pdf",
   "/wp-content/uploads/2022/menu.pdf", "/files/menu.pdf", "/uploads/menu.pdf",
   "/download/menu.pdf", "/documents/menu.pdf", "/docs/menu.pdf",
   "/menu/dinner", "/menu/lunch", "/menu/brunch", "/menu/breakfast", "/menu/drinks",
   "/menu/beverages", "/menu/kids", "/menu/dessert", "/menu/specials",
   "/restaurant-menu", "/the-menu", "/menus-list", "/full-menu", "/complete-menu",
   "/menu-card", "/menu-list", "/food", "/eat", "/order", "/order-online"]

/-- `host_matches_external` (source lines 190-195). -/
def host_matches_external (host : String) : Bool :=
  let h := lower_str host
  EXTERNAL_MENU_HOSTS.any (fun dom => h == dom || ends_with h ("." ++ dom))

/-- `score_link` (source lines 228-249). -/
def score_link (text href : String) : Int :=
  let t := lower_str (trim_str text)
  let h := lower_str (trim_str href)
  let score : Int := 0
  let score := POSITIVE_MENU_HINTS.foldl
    (fun sc kw =>
      if contains_sub t kw || contains_sub h kw then
        sc + (if contains_sub kw "menu" then 3 else 2)
      else sc) score
  let score := NEGATIVE_HINTS.foldl
    (fun sc bad => if contains_sub t bad || contains_sub h bad then sc - 3 else sc) score
  let score :=
    if (["/menu", "/menus", "food-menu", "our-menu", "menu.html"] : List String).any
        (fun p => contains_sub h p) then
      score + 3
    else score
  if ends_with h ".pdf" then score + 4 else score

/-- `is_menu_like` (source lines 295-308) over the extracted text counts. -/
def is_menu_like (html : Html) : Bool :=
  let price_hits := html.priceHits
  let currency_hits := html.currencyHits
  let cat_hits := html.catHits
  if 3 ≤ price_hits then true
  else if 2 ≤ currency_hits then true
  else if 1 ≤ price_hits ∧ 3 ≤ cat_hits then true
  else false

/-- `status_code is not None and status_code >= 400`. -/
def status_ge_400 : Option Int → Bool
  | none => false
  | some s => decide (400 ≤ s)

/-- `looks_like_error_page` (source lines 311-333) over the page features. -/
def looks_like_error_page (html : Html) (status_code : Option Int) : Bool :=
  if status_ge_400 status_code then true
  else if html.titleErrorHint then true
  else if html.noindexMissingPhrase then true
  else false

/-- The absolute URL and final (boost-included) score the anchor loop of
`discover_menu_links` computes for one anchor (source lines 256-268):
`urljoin` against the base, `score_link` on the truncated text and the raw
href, plus the external-host boost; `none` when the anchor has no href. -/
def anchor_abs_score (resolve : String → Url) (a : Anchor) : Option (Url × Int) :=
  match a.href with
  | none => none
  | some href =>
    let abs_url := resolve href
    let s := score_link (take_str 200 a.text) href
    some (abs_url, if host_matches_external abs_url.host then s + 6 else s)

/-- The scores computed for the anchors of `ans` that resolve to `u`. -/
def anchor_scores (resolve : String → Url) (ans : List Anchor) (u : Url) : List Int :=
  ans.filterMap (fun a =>
    match anchor_abs_score resolve a with
    | none => none
    | some vs => if vs.1 = u then some vs.2 else none)

/-- One iteration of the anchor loop of `discover_menu_links`
(source lines 255-275): score the anchor, apply the external-host boost,
drop non-positive scores, and store into the `candidates` dict keeping
the maximum score per absolute URL (dict insertion semantics: an update
keeps the key's original position, a new key is appended). -/
def discover_step (resolve : String → Url) (acc : List MenuPage) (a : Anchor) :
    List MenuPage :=
  match anchor_abs_score resolve a with
  | none => acc
  | some vs =>
    let abs_url := vs.1
    let s := vs.2
    if s ≤ 0 then acc
    else
      let text := take_str 200 a.text
      let mp : MenuPage :=
        { url := abs_url,
          label := take_str 60 (lower_str (if text == "" then "menu" else text)),
          score := s, guessed := false }
      match acc.find? (fun c => decide (c.url = abs_url)) with
      | none => acc ++ [mp]
      | some old =>
        if old.score < s then
          acc.map (fun c => if c.url = abs_url then mp else c)
        else acc

/-- `candidates[key] = mp` on the dict modelled as an insertion-ordered list
with unique `url` keys. -/
def dict_set (acc : List MenuPage) (mp : MenuPage) : List MenuPage :=
  if acc.any (fun c => decide (c.url = mp.url)) then
    acc.map (fun c => if c.url = mp.url then mp else c)
  else acc ++ [mp]

/-- The candidate dict of `discover_menu_links` after the anchor loop and
the homepage self-injection (source lines 252-279), in insertion order. -/
def discover_candidates (resolve : String → Url) (base_url : Url) (html : Html) :
    List MenuPage :=
  let cands := html.anchors.foldl (discover_step resolve) []
  if is_menu_like html then
    dict_set cands { url := base_url, label := "menu", score := 5, guessed := false }
  else cands

/-- Stable insert for descending score order. -/
def insert_desc (x : MenuPage) : List MenuPage → List MenuPage
  | [] => [x]
  | y :: rest => if y.score ≤ x.score then x :: y :: rest else y :: insert_desc x rest

/-- Python's `sorted(values, key=lambda m: m.score, reverse=True)`:
the unique stable descending-by-score reordering. -/
def sort_desc (l : List MenuPage) : List MenuPage := l.foldr insert_desc []

/-- `discover_menu_links` (source lines 252-281). -/
def discover_menu_links (resolve : String → Url) (base_url : Url) (html : Html) :
    List MenuPage :=
  (sort_desc (discover_candidates resolve base_url html)).take 12

/-- `build_guessed_menu_pages` (source lines 284-292).  For every entry of
`COMMON_MENU_PATHS` (an absolute path), `urljoin(root + "/", path.lstrip("/"))`
resolves to scheme://netloc/path, i.e. the base URL with that path. -/
def build_guessed_menu_pages (base_url : Url) : List MenuPage :=
  COMMON_MENU_PATHS.map (fun path =>
    let label := replace_dash_space (strip_char '/' path)
    let label := if label == "" then "menu" else label
    { url := { scheme := base_url.scheme, host := base_url.host, path := path },
      label := take_str 60 label, score := 8, guessed := true })

/-- Is the character kept verbatim by `re.sub(r"[^a-z0-9]+", "-", ...)`? -/
def is_lower_alnum (c : Char) : Bool :=
  ('a' ≤ c && c ≤ 'z') || ('0' ≤ c && c ≤ '9')

/-- Collapse consecutive dashes, so that mapping every excluded character to
a dash and squashing implements `re.sub(r"[^a-z0-9]+", "-", s)`. -/
def squash_dashes : List Char → List Char
  | [] => []
  | c :: rest =>
    match rest with
    | [] => [c]
    | d :: _ =>
      if c == '-' && d == '-' then squash_dashes rest else c :: squash_dashes rest

/-- `re.sub(r"[^a-z0-9]+", "-", ...)`: map excluded characters to dashes
and collapse runs. -/
def dashed (l : List Char) : List Char :=
  squash_dashes (l.map (fun c => if is_lower_alnum c then c else '-'))

/-- `.strip("-")` on a character list. -/
def strip_dash (l : List Char) : List Char :=
  ((l.dropWhile (fun c => c == '-')).reverse.dropWhile (fun c => c == '-')).reverse

/-- `sanitize_label` (source lines 351-356). -/
def sanitize_label (label : String) : String :=
  let l0 := trim_str (lower_str label)
  let l0 := if l0 == "" then "menu" else l0
  let l1 := strip_dash (dashed l0.data)
  let l1 := if l1.isEmpty then "menu".data else l1
  String.mk (l1.take 60)

/-- `os.path.basename` on a URL path: the segment after the last slash. -/
def basename (p : String) : String :=
  String.mk ((p.data.reverse.takeWhile (fun c => !(c == '/'))).reverse)

/-- The filename label shared by the PDF and HTML save blocks
(source lines 534-540 and 595-601): sanitize the candidate label and, when
it is the generic "menu", prefer the sanitized last path segment. -/
def resolved_label (mp : MenuPage) : String :=
  let label := sanitize_label (if mp.label == "" then "menu" else mp.label)
  if label == "menu" then
    let path := mp.url.path
    let tail := basename path
    let tail := if tail == "" then "menu" else tail
    let tail := sanitize_label tail
    if !(tail == "") && !(tail == "menu") then tail else label
  else label

/-- `os.path.splitext(fn)[1]`: the suffix from the last dot, unless every
character before that dot is itself a dot (leading dots are not extensions). -/
def splitext_ext (fn : String) : String :=
  let l := fn.data
  match l.reverse.findIdx? (fun c => c == '.') with
  | none => ""
  | some i =>
    let dotPos := l.length - 1 - i
    if (l.take dotPos).all (fun c => c == '.') then ""
    else String.mk (l.drop dotPos)

/-- `os.path.splitext(fn)[1].lower()`. -/
def ext_lower (fn : String) : String := lower_str (splitext_ext fn)

/-- The saved-file record the directory scan reconstructs for a file
(source lines 410-416). -/
def scan_record (name : String) : SavedFile :=
  { url := none, file := name, status := none, content_type := none,
    is_menu_like := true }

/-- The directory scan of `existing_menu_info` (source lines 399-416):
reconstruct a saved-file record for every regular html/htm/pdf file. -/
def scan_saved_files (fs : DirState) : List SavedFile :=
  fs.entries.filterMap (fun e =>
    if e.name == "metadata.json" then none
    else if !e.isFile then none
    else if ext_lower e.name == ".html" || ext_lower e.name == ".htm"
        || ext_lower e.name == ".pdf" then
      some (scan_record e.name)
    else none)

/-- `restaurant_output_dir`'s unique slug (source lines 359-362). -/
def slug_unique (r : Restaurant) : String :=
  if r.uuid == "" then r.slug else r.slug ++ "--" ++ take_str 8 r.uuid

/-- The metadata branch of `existing_menu_info` (source lines 375-397):
a parsed `metadata.json` with a non-empty `saved_files` list yields a
skipped result; otherwise fall through. -/
def existing_from_meta (fs : DirState) (r : Restaurant) : Option SiteResult :=
  match fs.metaFile with
  | MetaFile.parsed m =>
    let sf := m.saved_files.getD []
    if sf ≠ [] then
      some { uuid := m.uuid.getD r.uuid, slug := slug_unique r,
             name := m.name.getD r.name, website := m.website.getD r.website,
             found := true, saved_files := sf,
             errors := m.errors.getD [] ++ ["skipped_existing_menu"],
             skipped := true }
    else none
  | _ => none

/-- The directory-scan branch of `existing_menu_info` (source lines 399-430). -/
def existing_from_scan (fs : DirState) (r : Restaurant) : Option SiteResult :=
  let sf := scan_saved_files fs
  if sf ≠ [] then
    some { uuid := r.uuid, slug := slug_unique r, name := r.name,
           website := r.website, found := true, saved_files := sf,
           errors := ["skipped_existing_menu_no_meta"], skipped := true }
  else none

/-- `existing_menu_info` (source lines 365-433). -/
def existing_menu_info (fs : DirState) (r : Restaurant) : Option SiteResult :=
  if !fs.isDir then none
  else
    match existing_from_meta fs r with
    | some res => some res
    | none => existing_from_scan fs r

/-- `fetch_robots` (source lines 206-225): a network download only on a
cache miss for the host. -/
def fetch_robots (cache : List String) (host : String) : List String × List NetEvent :=
  if cache.any (fun h => h == host) then (cache, [])
  else (cache ++ [host], [NetEvent.robots host])

/-- `f"{status}"` / `f"{ctype}"` with Python's `None` rendering. -/
def opt_int_str : Option Int → String
  | none => "None"
  | some n => toString n

/-- Render an optional string as Python's f-string does. -/
def opt_str_str : Option String → String
  | none => "None"
  | some s => s

/-- `ctype2 == "application/pdf" or (ctype2 and "pdf" in ctype2)`. -/
def is_pdf_ctype : Option String → Bool
  | none => false
  | some c => c == "application/pdf" || contains_sub c "pdf"

/-- The metadata dict dumped to `metadata.json` (source lines 472-481,
491-500, 623-632). -/
def mk_meta (r : Restaurant) (base : Url) (ts : String) (found : Bool)
    (sf : List SavedFile) (errs : List String) : Meta :=
  { uuid := some r.uuid, name := some r.name, website := some (some base),
    timestamp := some ts, found := some found, saved_files := some sf,
    errors := some errs }

/-- Mutable state of the per-candidate loop of `process_restaurant`:
the accumulating result fields, the `saved` counter, `seen_urls`, the
shared robots cache, and the effect logs. -/
structure LoopSt where
  saved_files : List SavedFile
  errors : List String
  saved : Nat
  seen : List Url
  cache : List String
  fetches : List NetEvent
  writes : List FsWrite
  deriving DecidableEq

/-- The PDF save block (source lines 531-559). -/
def save_pdf (env : Env) (st : LoopSt) (mp : MenuPage) (ct : Option String)
    (stc : Option Int) : LoopSt :=
  let filename := resolved_label mp ++ ".pdf"
  let st := { st with fetches := st.fetches ++ [NetEvent.pdfGet mp.url] }
  if env.pdfSaveOk mp.url then
    { st with writes := st.writes ++ [FsWrite.doc filename],
              saved_files := st.saved_files ++
                [{ url := some mp.url, file := filename, status := stc,
                   content_type := ct, is_menu_like := true }],
              saved := st.saved + 1 }
  else
    { st with errors := st.errors ++
        ["write_failed_pdf:" ++ url_str mp.url ++ ":" ++ env.errMsg mp.url] }

/-- The HTML save block (source lines 595-617). -/
def save_html (env : Env) (st : LoopSt) (mp : MenuPage) (ml : Bool)
    (ct : Option String) (stc : Option Int) : LoopSt :=
  let filename := resolved_label mp ++ ".html"
  if env.htmlSaveOk mp.url then
    { st with writes := st.writes ++ [FsWrite.doc filename],
              saved_files := st.saved_files ++
                [{ url := some mp.url, file := filename, status := stc,
                   content_type := ct, is_menu_like := ml }],
              saved := st.saved + 1 }
  else
    { st with errors := st.errors ++
        ["write_failed:" ++ url_str mp.url ++ ":" ++ env.errMsg mp.url] }

/-- `seen_urls.add(mp.url)` (source line 520). -/
def pc_seen (st : LoopSt) (mp : MenuPage) : LoopSt :=
  { st with seen := mp.url :: st.seen }

/-- The per-candidate robots lookup (source line 522): cache update and
possible robots download. -/
def pc_robots (st : LoopSt) (mp : MenuPage) : LoopSt :=
  let rc := fetch_robots st.cache mp.url.host
  { st with cache := rc.1, fetches := st.fetches ++ rc.2 }

/-- The candidate page fetch event (source line 527). -/
def pc_page_event (st : LoopSt) (mp : MenuPage) : LoopSt :=
  { st with fetches := st.fetches ++ [NetEvent.page mp.url] }

/-- The classify-and-save part of the loop body (source lines 531-617),
given the fetch result's components. -/
def pc_fetched (env : Env) (st : LoopSt) (mp : MenuPage) (body : Option Html)
    (ct : Option String) (stc : Option Int) : LoopSt :=
  if is_pdf_ctype ct then save_pdf env st mp ct stc
  else
    match body with
    | none =>
      { st with errors := st.errors ++
          ["fetch_failed:" ++ url_str mp.url ++ ":" ++ opt_int_str stc
            ++ ":" ++ opt_str_str ct] }
    | some page =>
      if looks_like_error_page page stc then
        { st with errors := st.errors ++
            ["error_page:" ++ url_str mp.url ++ ":" ++ opt_int_str stc] }
      else
        let is_external := host_matches_external mp.url.host
        let ml := is_menu_like page
        if !ml && !is_external then
          let p := lower_str mp.url.path
          let base_name := basename p
          let ends_menu := ends_with p "/menu" || ends_with p "/menus"
          let base_is_menu := base_name == "menu" || base_name == "menus"
            || starts_with base_name "menu-" || starts_with base_name "menus-"
          if mp.guessed then st
          else if !(ends_menu || base_is_menu) then st
          else save_html env st mp ml ct stc
        else
          let ml := if is_external then true else ml
          save_html env st mp ml ct stc

/-- The body of one iteration of the candidate loop
(source lines 518-617), after the budget check. -/
def process_candidate (env : Env) (st : LoopSt) (mp : MenuPage) : LoopSt :=
  if st.seen.any (fun u => decide (u = mp.url)) then st
  else
    let st := pc_robots (pc_seen st mp) mp
    if !env.robotsAllowed mp.url then
      { st with errors := st.errors ++ ["blocked_by_robots:" ++ url_str mp.url] }
    else
      let st := pc_page_event st mp
      pc_fetched env st mp (env.fetch mp.url).1 (env.fetch mp.url).2.1
        (env.fetch mp.url).2.2

/-- The candidate loop with its budget break (source lines 515-517). -/
def candidate_loop (env : Env) (max_pages : Nat) :
    List MenuPage → LoopSt → LoopSt
  | [], st => st
  | mp :: rest, st =>
    if max_pages ≤ st.saved then st
    else candidate_loop env max_pages rest (process_candidate env st mp)

/-- The result record shared by the fresh terminal paths
(source lines 449-457 plus the appended error tag). -/
def base_result (r : Restaurant) (errs : List String) : SiteResult :=
  { uuid := r.uuid, slug := r.slug, name := r.name, website := r.website,
    found := false, saved_files := [], errors := errs, skipped := false }

/-- Result of `process_restaurant` together with its effect logs and the
final robots cache. -/
structure ProcResult where
  result : SiteResult
  fetches : List NetEvent
  writes : List FsWrite
  cache : List String

/-- The candidate list of the `Discovering` phase (source lines 505-510):
link-derived candidates followed by guessed candidates whose URL is not
already among the link-derived ones. -/
def all_candidates (env : Env) (base : Url) (html : Html) : List MenuPage :=
  let cands0 := discover_menu_links (env.urljoin base) base html
  let guessed := build_guessed_menu_pages base
  let existing_urls := cands0.map (fun m => m.url)
  cands0 ++ guessed.filter
    (fun mp => !(existing_urls.any (fun u => decide (u = mp.url))))

/-- The loop state on entry of the candidate loop: empty accumulators,
the robots cache and events so far, and the `ensure_dir` write. -/
def loop_start (cache1 : List String) (ev0 : List NetEvent) : LoopSt :=
  { saved_files := [], errors := [], saved := 0, seen := [], cache := cache1,
    fetches := ev0, writes := [FsWrite.mkdir] }

/-- The `Discovering`/`FetchingCandidates`/`Completed` part of
`process_restaurant` (source lines 505-636), entered with the homepage
HTML in hand. -/
def completed_run (env : Env) (r : Restaurant) (base : Url) (cache1 : List String)
    (ev0 : List NetEvent) (html : Html) (max_pages : Nat) : ProcResult :=
  let stF := candidate_loop env max_pages (all_candidates env base html)
    (loop_start cache1 ev0)
  let found := decide (0 < stF.saved)
  let m := mk_meta r base env.timestamp found stF.saved_files stF.errors
  let errs :=
    if env.metaSaveOk then stF.errors
    else stF.errors ++ ["meta_write_failed:" ++ env.metaErrMsg]
  { result := { uuid := r.uuid, slug := r.slug, name := r.name,
                website := some base, found := found,
                saved_files := stF.saved_files, errors := errs, skipped := false },
    fetches := stF.fetches,
    writes := stF.writes ++ [FsWrite.meta m env.metaSaveOk],
    cache := stF.cache }

/-- The non-resumed part of `process_restaurant` for a restaurant with a
website (source lines 463-636): `ensure_dir`, homepage robots check,
homepage fetch, then the candidate phase. -/
def fresh_process (env : Env) (r : Restaurant) (base : Url) (cache0 : List String)
    (max_pages : Nat) : ProcResult :=
  let rc := fetch_robots cache0 base.host
  if !env.robotsAllowed base then
    let errs := ["blocked_by_robots_home"]
    { result := base_result r errs, fetches := rc.2,
      writes := [FsWrite.mkdir,
        FsWrite.meta (mk_meta r base env.timestamp false [] errs) env.metaSaveOk],
      cache := rc.1 }
  else
    let evs := rc.2 ++ [NetEvent.page base]
    let f := env.fetch base
    match f.1 with
    | none =>
      let errs := ["homepage_unavailable:" ++ opt_int_str f.2.2 ++ ":"
        ++ opt_str_str f.2.1]
      { result := base_result r errs, fetches := evs,
        writes := [FsWrite.mkdir,
          FsWrite.meta (mk_meta r base env.timestamp false [] errs) env.metaSaveOk],
        cache := rc.1 }
    | some html => completed_run env r base rc.1 evs html max_pages

/-- `process_restaurant` (source lines 436-636). -/
def process_restaurant (env : Env) (fs : DirState) (cache0 : List String)
    (r : Restaurant) (max_pages : Nat) : ProcResult :=
  match existing_menu_info fs r with
  | some res => { result := res, fetches := [], writes := [], cache := cache0 }
  | none =>
    match r.website with
    | none =>
      { result := base_result r ["no_website"], fetches := [], writes := [],
        cache := cache0 }
    | some base => fresh_process env r base cache0 max_pages

/-- Replay one logged filesystem write onto a directory state. -/
def apply_write (fs : DirState) (w : FsWrite) : DirState :=
  match w with
  | FsWrite.mkdir => { fs with isDir := true }
  | FsWrite.doc name =>
    if fs.entries.any (fun e => e.name == name) then
      let upd := fun (e : DirEntry) =>
        if e.name == name then { e with isFile := true } else e
      { fs with entries := fs.entries.map upd }
    else { fs with entries := fs.entries ++ [{ name := name, isFile := true }] }
  | FsWrite.meta m ok =>
    if ok then { fs with metaFile := MetaFile.parsed m } else fs

/-- Replay a run's filesystem writes, giving the directory the next run sees. -/
def apply_writes (fs : DirState) (ws : List FsWrite) : DirState :=
  ws.foldl apply_write fs

/-- The save decision of the loop body for a fetch result broken into its
components (body, content type, status). -/
def would_save_aux (env : Env) (mp : MenuPage) (body : Option Html)
    (ct : Option String) (stc : Option Int) : Bool :=
  env.robotsAllowed mp.url &&
  (if is_pdf_ctype ct then env.pdfSaveOk mp.url
   else
     match body with
     | none => false
     | some page =>
       if looks_like_error_page page stc then false
       else
         let is_external := host_matches_external mp.url.host
         let ml := is_menu_like page
         if !ml && !is_external then
           if mp.guessed then false
           else
             let p := lower_str mp.url.path
             let base_name := basename p
             let ends_menu := ends_with p "/menu" || ends_with p "/menus"
             let base_is_menu := base_name == "menu" || base_name == "menus"
               || starts_with base_name "menu-" || starts_with base_name "menus-"
             if !(ends_menu || base_is_menu) then false
             else env.htmlSaveOk mp.url
         else env.htmlSaveOk mp.url)

/-- Would the candidate loop save a document for this candidate when it
reaches it within budget?  Extracted decision logic of the loop body
(source lines 522-617); it depends only on the environment and the
candidate, not on the loop state. -/
def would_save (env : Env) (mp : MenuPage) : Bool :=
  would_save_aux env mp (env.fetch mp.url).1 (env.fetch mp.url).2.1
    (env.fetch mp.url).2.2

/-- The names of the documents recorded as written. -/
def doc_names (ws : List FsWrite) : List String :=
  ws.filterMap (fun w => match w with | FsWrite.doc n => some n | _ => none)

/-- A filename the engine writes for a document: its extension (as the
resume scan computes it) is `.html` or `.pdf`. -/
def good_doc_name (n : String) : Prop :=
  ext_lower n = ".html" ∨ ext_lower n = ".pdf"

/-- Invariant of the anchor loop of `discover_menu_links` after processing
the anchors `ans`: the candidate dict has unique URL keys, every stored
candidate carries the maximum of the scores its URL received, and a URL
with no stored candidate only received non-positive scores. -/
def cand_inv (resolve : String → Url) (ans : List Anchor) (acc : List MenuPage) : Prop :=
  acc.Pairwise (fun c c' => c.url ≠ c'.url) ∧
  (∀ c ∈ acc, c.score ∈ anchor_scores resolve ans c.url ∧
    (∀ s ∈ anchor_scores resolve ans c.url, s ≤ c.score) ∧ 0 < c.score) ∧
  (∀ u, (∀ c ∈ acc, c.url ≠ u) → ∀ s ∈ anchor_scores resolve ans u, s ≤ 0)

/-! ## Concrete instances used by counterexamples and witnesses -/

/-- A page with no anchors and no menu signals: `is_menu_like` is false. -/
def plain_html : Html :=
  { anchors := [], priceHits := 0, currencyHits := 0, catHits := 0,
    titleErrorHint := false, noindexMissingPhrase := false }

/-- A page with three price tokens and no anchors: `is_menu_like` is true. -/
def menu_html : Html :=
  { anchors := [], priceHits := 3, currencyHits := 0, catHits := 0,
    titleErrorHint := false, noindexMissingPhrase := false }

/-- A not-yet-created output directory. -/
def empty_dir : DirState := { isDir := false, metaFile := MetaFile.absent, entries := [] }

/-- An ordinary restaurant homepage URL. -/
def ex_url : Url := { scheme := "https", host := "example.com", path := "" }

/-- A homepage hosted directly on an external ordering platform. -/
def toast_url : Url := { scheme := "https", host := "toasttab.com", path := "/home" }

/-- A degenerate resolver (the claims never exercise homepage hrefs with it). -/
def dummy_join : Url → String → Url := fun u _ => u

/-- Environment where every fetch yields a menu-like HTML page and all
writes succeed. -/
def env_menu : Env :=
  { robotsAllowed := fun _ => true,
    fetch := fun _ => (some menu_html, some "text/html", some 200),
    pdfSaveOk := fun _ => true, htmlSaveOk := fun _ => true, metaSaveOk := true,
    timestamp := "2026-01-01T00:00:00+00:00", urljoin := dummy_join,
    errMsg := fun _ => "err", metaErrMsg := "err" }

/-- Environment where every fetch yields a non-menu-like HTML page. -/
def env_plain : Env :=
  { env_menu with fetch := fun _ => (some plain_html, some "text/html", some 200) }

/-- Environment whose robots policy blocks every URL. -/
def env_block : Env := { env_menu with robotsAllowed := fun _ => false }

/-- Restaurant with an ordinary website. -/
def r_example : Restaurant :=
  { uuid := "uuid-0001", slug := "ex", name := "Ex", website := some ex_url }

/-- Restaurant whose website lives on an external ordering platform host. -/
def r_toast : Restaurant :=
  { uuid := "uuid-0002", slug := "toast", name := "Toast", website := some toast_url }

/-- Restaurant without a website. -/
def r_nosite : Restaurant :=
  { uuid := "uuid-0003", slug := "nos", name := "NoSite", website := none }

/-- The first guessed candidate URL for `toast_url`. -/
def g_toast : Url := { scheme := "https", host := "toasttab.com", path := "/menu" }

/-- The first guessed candidate for `toast_url`. -/
def g_toast_mp : MenuPage := { url := g_toast, label := "menu", score := 8, guessed := true }

/-- The first guessed candidate URL for `ex_url`. -/
def g_ex : Url := { scheme := "https", host := "example.com", path := "/menu" }

/-- The first guessed candidate for `ex_url`. -/
def g_ex_mp : MenuPage := { url := g_ex, label := "menu", score := 8, guessed := true }

/-- Resolver mapping every href to the homepage URL itself. -/
def res_base : String → Url := fun _ => ex_url

/-- Resolver pairing every href with the example host. -/
def res_path : String → Url := fun h => { scheme := "https", host := "example.com", path := h }

/-- An anchor to a PDF menu: `score_link "menu" "/menu.pdf" = 10`. -/
def pdf_anchor : Anchor := { href := some "/menu.pdf", text := "menu" }

/-- A menu-like homepage carrying two identical high-scoring anchors that
both resolve (under `res_base`) to the homepage URL itself. -/
def html_c8 : Html :=
  { anchors := [pdf_anchor, pdf_anchor], priceHits := 3, currencyHits := 0,
    catHits := 0, titleErrorHint := false, noindexMissingPhrase := false }

/-- An anchor to `/menu<n>` with text "menu": `score_link` gives 6. -/
def menu_anchor (n : String) : Anchor := { href := some ("/menu" ++ n), text := "menu" }

/-- A menu-like homepage with 13 distinct score-6 anchors, enough to push
the injected score-5 homepage candidate out of the top 12. -/
def html_c9 : Html :=
  { anchors := ["0", "1", "2", "3", "4", "5", "6", "7", "8", "9", "10", "11", "12"].map
      menu_anchor,
    priceHits := 3, currencyHits := 0, catHits := 0,
    titleErrorHint := false, noindexMissingPhrase := false }

/-- Two anchors to the same URL `/menu` with different link texts,
scoring 6 and 8, on a non-menu-like homepage. -/
def html_c8w : Html :=
  { anchors := [{ href := some "/menu", text := "x" }, { href := some "/menu", text := "lunch" }],
    priceHits := 0, currencyHits := 0, catHits := 0,
    titleErrorHint := false, noindexMissingPhrase := false }

/-- A directory holding one saved PDF and no metadata. -/
def dir_one_pdf : DirState :=
  { isDir := true, metaFile := MetaFile.absent,
    entries := [{ name := "menu.pdf", isFile := true }] }

/-- The `MenuPage` the anchor loop constructs for an anchor resolving to
`u_a` with final score `s_a` (source line 273). -/
def anchor_new_mp (a : Anchor) (u_a : Url) (s_a : Int) : MenuPage :=
  { url := u_a,
    label := take_str 60 (lower_str
      (if take_str 200 a.text == "" then "menu" else take_str 200 a.text)),
    score := s_a, guessed := false }

/-! ## Helper lemmas -/

theorem is_menu_like_iff (html : Html) :
    is_menu_like html = true ↔
      (3 ≤ html.priceHits ∨ 2 ≤ html.currencyHits ∨
        (1 ≤ html.priceHits ∧ 3 ≤ html.catHits)) := by
  simp only [is_menu_like]
  split_ifs with h1 h2 h3 <;> simp_all

theorem existing_from_meta_skipped (fs : DirState) (r : Restaurant) (res : SiteResult)
    (h : existing_from_meta fs r = some res) : res.skipped = true := by
  simp only [existing_from_meta] at h
  split at h
  · split_ifs at h <;> simp_all
    exact h.symm ▸ rfl
  · cases h

theorem existing_from_scan_skipped (fs : DirState) (r : Restaurant) (res : SiteResult)
    (h : existing_from_scan fs r = some res) : res.skipped = true := by
  simp only [existing_from_scan] at h
  split_ifs at h <;> simp_all
  exact h.symm ▸ rfl

theorem existing_cases (fs : DirState) (r : Restaurant) (res : SiteResult)
    (h : existing_menu_info fs r = some res) :
    existing_from_meta fs r = some res ∨
      (existing_from_meta fs r = none ∧ existing_from_scan fs r = some res) := by
  unfold existing_menu_info at h
  split_ifs at h
  split at h
  · rename_i heq
    cases h
    exact Or.inl heq
  · exact Or.inr ⟨by assumption, h⟩

theorem existing_skipped (fs : DirState) (r : Restaurant) (res : SiteResult)
    (h : existing_menu_info fs r = some res) : res.skipped = true := by
  rcases existing_cases fs r res h with h1 | ⟨_, h2⟩
  · exact existing_from_meta_skipped fs r res h1
  · exact existing_from_scan_skipped fs r res h2

theorem scan_saved_files_shape (fs : DirState) :
    ∀ sf ∈ scan_saved_files fs, sf.url = none ∧ sf.status = none ∧
      sf.content_type = none ∧ sf.is_menu_like = true := by
  intro sf hsf
  simp only [scan_saved_files, List.mem_filterMap] at hsf
  obtain ⟨e, _, hcond⟩ := hsf
  split_ifs at hcond
  cases hcond
  simp [scan_record]

theorem scan_saved_files_ne_nil (fs : DirState) (e : DirEntry) (he : e ∈ fs.entries)
    (hf : e.isFile = true)
    (hext : ext_lower e.name = ".html" ∨ ext_lower e.name = ".htm"
      ∨ ext_lower e.name = ".pdf") :
    scan_saved_files fs ≠ [] := by
  have hname : ¬ (e.name = "metadata.json") := by
    intro hn
    rw [hn] at hext
    revert hext
    decide
  have hne : (e.name == "metadata.json") = false := by
    simpa using hname
  have hcond : (ext_lower e.name == ".html" || ext_lower e.name == ".htm"
      || ext_lower e.name == ".pdf") = true := by
    rcases hext with h | h | h <;> simp [h]
  have hmem : scan_record e.name ∈ scan_saved_files fs := by
    simp only [scan_saved_files, List.mem_filterMap]
    exact ⟨e, he, by simp [hne, hf, hcond]⟩
  intro hnil
  rw [hnil] at hmem
  exact absurd hmem (by simp)

/-- C10: when the output directory exists but `metadata.json` is absent,
unparsable, or lists no saved files, and the directory holds at least one
regular file with extension `.html`, `.htm` or `.pdf`, the resume check
returns `found = true`, `skipped = true`, and every reconstructed
saved-file entry has no url/status/content-type and `is_menu_like = true`. -/
theorem C10_scan_resume (fs : DirState) (r : Restaurant)
    (hdir : fs.isDir = true)
    (hmeta : fs.metaFile = MetaFile.absent ∨ fs.metaFile = MetaFile.broken ∨
      ∃ m, fs.metaFile = MetaFile.parsed m ∧ m.saved_files.getD [] = [])
    (e : DirEntry) (he : e ∈ fs.entries) (hf : e.isFile = true)
    (hext : ext_lower e.name = ".html" ∨ ext_lower e.name = ".htm"
      ∨ ext_lower e.name = ".pdf") :
    ∃ res, existing_menu_info fs r = some res ∧ res.found = true ∧
      res.skipped = true ∧
      ∀ sf ∈ res.saved_files, sf.url = none ∧ sf.status = none ∧
        sf.content_type = none ∧ sf.is_menu_like = true := by
  have h1 : existing_from_meta fs r = none := by
    unfold existing_from_meta
    rcases hmeta with h | h | ⟨m, hm, hsf⟩
    · rw [h]
    · rw [h]
    · rw [hm]
      simp [hsf]
  have h2 : scan_saved_files fs ≠ [] := scan_saved_files_ne_nil fs e he hf hext
  refine ⟨{ uuid := r.uuid, slug := slug_unique r, name := r.name,
            website := r.website, found := true,
            saved_files := scan_saved_files fs,
            errors := ["skipped_existing_menu_no_meta"], skipped := true },
    ?_, rfl, rfl, ?_⟩
  · simp [existing_menu_info, hdir, h1, existing_from_scan, h2]
  · exact fun sf hsf => scan_saved_files_shape fs sf hsf

/-- Witness for C10: a directory with one saved `menu.pdf` and no metadata. -/
theorem C10_witness :
    dir_one_pdf.isDir = true ∧
    (∃ res, existing_menu_info dir_one_pdf r_example = some res ∧ res.found = true ∧
      res.skipped = true ∧
      ∀ sf ∈ res.saved_files, sf.url = none ∧ sf.status = none ∧
        sf.content_type = none ∧ sf.is_menu_like = true) :=
  ⟨rfl, C10_scan_resume dir_one_pdf r_example rfl (Or.inl rfl)
    { name := "menu.pdf", isFile := true } (by decide) rfl (by decide)⟩

/-- C6: `isMenuLike` is true exactly when the price-token count is at
least 3, or the currency-symbol count is at least 2, or the price-token
count is at least 1 and at least 3 distinct category keywords occur. -/
theorem C6_is_menu_like_characterization (html : Html) :
    is_menu_like html = true ↔
      (3 ≤ html.priceHits ∨ 2 ≤ html.currencyHits ∨
        (1 ≤ html.priceHits ∧ 3 ≤ html.catHits)) :=
  is_menu_like_iff html

/-- C7: `isMenuLike` is monotone in the extracted counts; in particular a
text classified true stays true when price tokens are added (price count
grows, the other counts cannot shrink when text is added). -/
theorem C7_menu_like_monotone (h h' : Html)
    (hml : is_menu_like h = true)
    (hp : h.priceHits ≤ h'.priceHits)
    (hc : h.currencyHits ≤ h'.currencyHits)
    (hk : h.catHits ≤ h'.catHits) :
    is_menu_like h' = true := by
  rw [is_menu_like_iff] at hml ⊢
  rcases hml with h1 | h2 | ⟨h3, h4⟩
  · exact Or.inl (le_trans h1 hp)
  · exact Or.inr (Or.inl (le_trans h2 hc))
  · exact Or.inr (Or.inr ⟨le_trans h3 hp, le_trans h4 hk⟩)

/-- Witness for C7: one price token and three category keywords, then one
more price token. -/
theorem C7_witness :
    is_menu_like ⟨[], 1, 0, 3, false, false⟩ = true ∧
      is_menu_like ⟨[], 2, 0, 3, false, false⟩ = true :=
  ⟨by decide, C7_menu_like_monotone ⟨[], 1, 0, 3, false, false⟩
    ⟨[], 2, 0, 3, false, false⟩ (by decide) (by decide) (by decide) (by decide)⟩

theorem save_pdf_fields (env : Env) (st : LoopSt) (mp : MenuPage) (ct : Option String)
    (stc : Option Int) :
    (env.pdfSaveOk mp.url = true ∧
      (save_pdf env st mp ct stc).saved_files = st.saved_files ++
        [{ url := some mp.url, file := resolved_label mp ++ ".pdf", status := stc,
           content_type := ct, is_menu_like := true }] ∧
      (save_pdf env st mp ct stc).saved = st.saved + 1 ∧
      (save_pdf env st mp ct stc).writes = st.writes ++
        [FsWrite.doc (resolved_label mp ++ ".pdf")]) ∨
    (env.pdfSaveOk mp.url = false ∧
      (save_pdf env st mp ct stc).saved_files = st.saved_files ∧
      (save_pdf env st mp ct stc).saved = st.saved ∧
      (save_pdf env st mp ct stc).writes = st.writes) := by
  unfold save_pdf
  by_cases h : env.pdfSaveOk mp.url = true
  · left
    simp [h]
  · right
    simp only [Bool.not_eq_true] at h
    simp [h]

theorem save_html_fields (env : Env) (st : LoopSt) (mp : MenuPage) (ml : Bool)
    (ct : Option String) (stc : Option Int) :
    (env.htmlSaveOk mp.url = true ∧
      (save_html env st mp ml ct stc).saved_files = st.saved_files ++
        [{ url := some mp.url, file := resolved_label mp ++ ".html", status := stc,
           content_type := ct, is_menu_like := ml }] ∧
      (save_html env st mp ml ct stc).saved = st.saved + 1 ∧
      (save_html env st mp ml ct stc).writes = st.writes ++
        [FsWrite.doc (resolved_label mp ++ ".html")]) ∨
    (env.htmlSaveOk mp.url = false ∧
      (save_html env st mp ml ct stc).saved_files = st.saved_files ∧
      (save_html env st mp ml ct stc).saved = st.saved ∧
      (save_html env st mp ml ct stc).writes = st.writes) := by
  unfold save_html
  by_cases h : env.htmlSaveOk mp.url = true
  · left
    simp [h]
  · right
    simp only [Bool.not_eq_true] at h
    simp [h]

theorem pc_fetched_cases (env : Env) (st : LoopSt) (mp : MenuPage)
    (body : Option Html) (ct : Option String) (stc : Option Int)
    (hrob : env.robotsAllowed mp.url = true) :
    ((pc_fetched env st mp body ct stc).saved_files = st.saved_files ∧
      (pc_fetched env st mp body ct stc).saved = st.saved ∧
      (pc_fetched env st mp body ct stc).writes = st.writes) ∨
    (∃ sf name,
      (pc_fetched env st mp body ct stc).saved_files = st.saved_files ++ [sf] ∧
      (pc_fetched env st mp body ct stc).saved = st.saved + 1 ∧
      (pc_fetched env st mp body ct stc).writes = st.writes ++ [FsWrite.doc name] ∧
      sf.url = some mp.url ∧ sf.file = name ∧
      (name = resolved_label mp ++ ".html" ∨ name = resolved_label mp ++ ".pdf") ∧
      would_save_aux env mp body ct stc = true) := by
  unfold pc_fetched
  by_cases h3 : is_pdf_ctype ct = true
  · rw [if_pos h3]
    rcases save_pdf_fields env st mp ct stc with ⟨hok, hsf, hsv, hw⟩ | ⟨hok, hsf, hsv, hw⟩
    · right
      refine ⟨_, _, hsf, hsv, hw, rfl, rfl, Or.inr rfl, ?_⟩
      simp only [would_save_aux]
      rw [if_pos h3]
      simp [hrob, hok]
    · left
      exact ⟨hsf, hsv, hw⟩
  · rw [if_neg h3]
    cases body with
    | none =>
      left
      exact ⟨rfl, rfl, rfl⟩
    | some page =>
      dsimp only
      by_cases h4 : looks_like_error_page page stc = true
      · rw [if_pos h4]
        left
        exact ⟨rfl, rfl, rfl⟩
      · rw [if_neg h4]
        by_cases h5 : (!is_menu_like page && !host_matches_external mp.url.host) = true
        · rw [if_pos h5]
          by_cases h6 : mp.guessed = true
          · rw [if_pos h6]
            left
            exact ⟨rfl, rfl, rfl⟩
          · rw [if_neg h6]
            by_cases h7 : (!(ends_with (lower_str mp.url.path) "/menu"
                || ends_with (lower_str mp.url.path) "/menus"
                || (basename (lower_str mp.url.path) == "menu"
                  || basename (lower_str mp.url.path) == "menus"
                  || starts_with (basename (lower_str mp.url.path)) "menu-"
                  || starts_with (basename (lower_str mp.url.path)) "menus-"))) = true
            · rw [if_pos h7]
              left
              exact ⟨rfl, rfl, rfl⟩
            · rw [if_neg h7]
              rcases save_html_fields env st mp (is_menu_like page) ct stc with
                  ⟨hok, hsf, hsv, hw⟩ | ⟨hok, hsf, hsv, hw⟩
              · right
                refine ⟨_, _, hsf, hsv, hw, rfl, rfl, Or.inl rfl, ?_⟩
                simp only [would_save_aux]
                rw [if_neg h3, if_neg h4, if_pos h5, if_neg h6, if_neg h7]
                simp [hrob, hok]
              · left
                exact ⟨hsf, hsv, hw⟩
        · rw [if_neg h5]
          rcases save_html_fields env st mp
              (if host_matches_external mp.url.host then true else is_menu_like page)
              ct stc with ⟨hok, hsf, hsv, hw⟩ | ⟨hok, hsf, hsv, hw⟩
          · right
            refine ⟨_, _, hsf, hsv, hw, rfl, rfl, Or.inl rfl, ?_⟩
            simp only [would_save_aux]
            rw [if_neg h3, if_neg h4, if_neg h5]
            simp [hrob, hok]
          · left
            exact ⟨hsf, hsv, hw⟩

theorem process_candidate_cases (env : Env) (st : LoopSt) (mp : MenuPage) :
    ((process_candidate env st mp).saved_files = st.saved_files ∧
      (process_candidate env st mp).saved = st.saved ∧
      (process_candidate env st mp).writes = st.writes) ∨
    (∃ sf name,
      (process_candidate env st mp).saved_files = st.saved_files ++ [sf] ∧
      (process_candidate env st mp).saved = st.saved + 1 ∧
      (process_candidate env st mp).writes = st.writes ++ [FsWrite.doc name] ∧
      sf.url = some mp.url ∧ sf.file = name ∧
      (name = resolved_label mp ++ ".html" ∨ name = resolved_label mp ++ ".pdf") ∧
      would_save env mp = true) := by
  generalize hpc : process_candidate env st mp = st2
  unfold process_candidate at hpc
  by_cases h1 : st.seen.any (fun u => decide (u = mp.url)) = true
  · rw [if_pos h1] at hpc
    subst hpc
    left
    exact ⟨rfl, rfl, rfl⟩
  · rw [if_neg h1] at hpc
    by_cases h2 : env.robotsAllowed mp.url = true
    · rw [if_neg (by simp [h2])] at hpc
      rcases pc_fetched_cases env (pc_page_event (pc_robots (pc_seen st mp) mp) mp) mp
          (env.fetch mp.url).1 (env.fetch mp.url).2.1 (env.fetch mp.url).2.2 h2 with
        ⟨hsf, hsv, hw⟩ | ⟨sf, name, hsf, hsv, hw, hurl, hfile, hname, hws⟩
      · rw [hpc] at hsf hsv hw
        left
        exact ⟨hsf, hsv, hw⟩
      · rw [hpc] at hsf hsv hw
        right
        exact ⟨sf, name, hsf, hsv, hw, hurl, hfile, hname, hws⟩
    · rw [if_pos (by simp [Bool.not_eq_true] at h2 ⊢; exact h2)] at hpc
      subst hpc
      left
      exact ⟨rfl, rfl, rfl⟩

theorem squash_dashes_subset (l : List Char) : ∀ c ∈ squash_dashes l, c ∈ l := by
  induction l with
  | nil => simp [squash_dashes]
  | cons a rest ih =>
    intro c hc
    unfold squash_dashes at hc
    cases rest with
    | nil => simpa using hc
    | cons d t =>
      dsimp only at hc
      split_ifs at hc with hd
      · exact List.mem_cons_of_mem a (ih c hc)
      · rcases List.mem_cons.mp hc with h | h
        · exact h ▸ List.mem_cons_self a (d :: t)
        · exact List.mem_cons_of_mem a (ih c h)

theorem strip_dash_subset (l : List Char) : ∀ c ∈ strip_dash l, c ∈ l := by
  intro c hc
  unfold strip_dash at hc
  rw [List.mem_reverse] at hc
  have h1 := (List.dropWhile_sublist (fun c => c == '-')).subset hc
  rw [List.mem_reverse] at h1
  exact (List.dropWhile_sublist (fun c => c == '-')).subset h1

theorem dashed_chars (l : List Char) :
    ∀ c ∈ dashed l, (is_lower_alnum c || c == '-') = true := by
  intro c hc
  have hm := squash_dashes_subset _ c hc
  simp only [List.mem_map] at hm
  obtain ⟨c0, _, hc0⟩ := hm
  by_cases h : is_lower_alnum c0 = true
  · rw [if_pos h] at hc0
    subst hc0
    simp [h]
  · rw [if_neg h] at hc0
    subst hc0
    simp

theorem sanitize_label_eq (s : String) :
    ∃ l : List Char, sanitize_label s = String.mk (l.take 60) ∧ l ≠ [] ∧
      ∀ c ∈ l, (is_lower_alnum c || c == '-') = true := by
  simp only [sanitize_label]
  split_ifs with h1 h2 h3
  · exact ⟨"menu".data, rfl, by decide, by decide⟩
  · refine ⟨strip_dash (dashed "menu".data), rfl, ?_, ?_⟩
    · intro hnil
      rw [hnil] at h2
      exact absurd h2 (by decide)
    · intro c hc
      exact dashed_chars _ c (strip_dash_subset _ c hc)
  · exact ⟨"menu".data, rfl, by decide, by decide⟩
  · refine ⟨strip_dash (dashed (trim_str (lower_str s)).data), rfl, ?_, ?_⟩
    · intro hnil
      rw [hnil] at h3
      exact absurd h3 (by decide)
    · intro c hc
      exact dashed_chars _ c (strip_dash_subset _ c hc)

theorem sanitize_label_props (s : String) :
    (sanitize_label s).data ≠ [] ∧
      ∀ c ∈ (sanitize_label s).data, (c == '.') = false := by
  obtain ⟨l, heq, hne, hchars⟩ := sanitize_label_eq s
  rw [heq]
  constructor
  · show l.take 60 ≠ []
    rw [Ne, List.take_eq_nil_iff]
    rintro (h | h)
    · cases h
    · exact hne h
  · intro c hc
    have hcl : c ∈ l := List.take_subset 60 l hc
    have := hchars c hcl
    by_cases h : c = '.'
    · subst h
      exact absurd this (by decide)
    · simpa using h

theorem resolved_label_props (mp : MenuPage) :
    (resolved_label mp).data ≠ [] ∧
      ∀ c ∈ (resolved_label mp).data, (c == '.') = false := by
  simp only [resolved_label]
  split_ifs <;> exact sanitize_label_props _

theorem splitext_ext_append (fn : String) (l tail : List Char)
    (hfn : fn.data = l ++ '.' :: tail)
    (hl : l ≠ []) (hld : ∀ c ∈ l, (c == '.') = false)
    (htl : ∀ c ∈ tail, (c == '.') = false) :
    splitext_ext fn = String.mk ('.' :: tail) := by
  have hrev : (l ++ '.' :: tail).reverse = tail.reverse ++ '.' :: l.reverse := by
    rw [List.reverse_append, List.reverse_cons, List.append_assoc]
    rfl
  have hfind : List.findIdx? (fun c => c == '.') (tail.reverse ++ '.' :: l.reverse)
      = some tail.length := by
    rw [List.findIdx?_append]
    have h1 : List.findIdx? (fun c => c == '.') tail.reverse = none := by
      rw [List.findIdx?_eq_none_iff]
      intro x hx
      exact htl x (List.mem_reverse.mp hx)
    have h2 : List.findIdx? (fun c => c == '.') ('.' :: l.reverse) = some 0 := by
      rw [List.findIdx?_cons]
      simp
    rw [h1, h2]
    simp
  have hlen : (l ++ '.' :: tail).length - 1 - tail.length = l.length := by
    rw [List.length_append, List.length_cons]
    omega
  simp only [splitext_ext]
  rw [hfn, hrev, hfind]
  dsimp only
  rw [hlen, List.take_left, List.drop_left]
  rw [if_neg]
  intro hall
  rcases l with _ | ⟨c0, l'⟩
  · exact hl rfl
  · have := List.all_eq_true.mp hall c0 (List.mem_cons_self c0 l')
    rw [hld c0 (List.mem_cons_self c0 l')] at this
    cases this

theorem good_doc_name_html (mp : MenuPage) :
    good_doc_name (resolved_label mp ++ ".html") := by
  obtain ⟨hne, hchars⟩ := resolved_label_props mp
  have hdata : (resolved_label mp ++ ".html").data
      = (resolved_label mp).data ++ '.' :: "html".data := by
    rw [String.data_append]
  left
  unfold ext_lower
  rw [splitext_ext_append _ (resolved_label mp).data "html".data hdata hne hchars
    (by decide)]
  decide

theorem good_doc_name_pdf (mp : MenuPage) :
    good_doc_name (resolved_label mp ++ ".pdf") := by
  obtain ⟨hne, hchars⟩ := resolved_label_props mp
  have hdata : (resolved_label mp ++ ".pdf").data
      = (resolved_label mp).data ++ '.' :: "pdf".data := by
    rw [String.data_append]
  right
  unfold ext_lower
  rw [splitext_ext_append _ (resolved_label mp).data "pdf".data hdata hne hchars
    (by decide)]
  decide

theorem candidate_loop_len (env : Env) (max_pages : Nat) (cands : List MenuPage)
    (st : LoopSt) (h : st.saved = st.saved_files.length) :
    (candidate_loop env max_pages cands st).saved
      = (candidate_loop env max_pages cands st).saved_files.length := by
  induction cands generalizing st with
  | nil => exact h
  | cons mp rest ih =>
    unfold candidate_loop
    by_cases hb : max_pages ≤ st.saved
    · rw [if_pos hb]
      exact h
    · rw [if_neg hb]
      apply ih
      rcases process_candidate_cases env st mp with ⟨h1, h2, _⟩ |
        ⟨sf, name, h1, h2, _, _, _, _, _⟩
      · rw [h1, h2]
        exact h
      · rw [h1, h2, List.length_append, h]
        rfl

theorem candidate_loop_budget (env : Env) (max_pages : Nat) (cands : List MenuPage)
    (st : LoopSt) (h : st.saved ≤ max_pages) :
    (candidate_loop env max_pages cands st).saved ≤ max_pages := by
  induction cands generalizing st with
  | nil => exact h
  | cons mp rest ih =>
    unfold candidate_loop
    by_cases hb : max_pages ≤ st.saved
    · rw [if_pos hb]
      exact h
    · rw [if_neg hb]
      apply ih
      rcases process_candidate_cases env st mp with ⟨_, h2, _⟩ |
        ⟨sf, name, _, h2, _, _, _, _, _⟩
      · rw [h2]
        exact h
      · rw [h2]
        omega

theorem candidate_loop_shape (env : Env) (max_pages : Nat) (cands : List MenuPage)
    (st : LoopSt) :
    ∃ ds : List FsWrite,
      (candidate_loop env max_pages cands st).writes = st.writes ++ ds ∧
      (∀ w ∈ ds, ∃ n, w = FsWrite.doc n ∧ good_doc_name n) ∧
      (candidate_loop env max_pages cands st).saved_files.length
        = st.saved_files.length + ds.length := by
  induction cands generalizing st with
  | nil => exact ⟨[], by simp [candidate_loop], by simp, by simp [candidate_loop]⟩
  | cons mp rest ih =>
    unfold candidate_loop
    by_cases hb : max_pages ≤ st.saved
    · rw [if_pos hb]
      exact ⟨[], by simp, by simp, by simp⟩
    · rw [if_neg hb]
      obtain ⟨ds, hws, hdocs, hlen⟩ := ih (process_candidate env st mp)
      rcases process_candidate_cases env st mp with ⟨h1, _, h3⟩ |
        ⟨sf, name, h1, _, h3, _, _, hname, _⟩
      · refine ⟨ds, ?_, hdocs, ?_⟩
        · rw [hws, h3]
        · rw [hlen, h1]
      · refine ⟨FsWrite.doc name :: ds, ?_, ?_, ?_⟩
        · rw [hws, h3, List.append_assoc]
          rfl
        · intro w hw
          rcases List.mem_cons.mp hw with h | h
          · refine ⟨name, h, ?_⟩
            rcases hname with h' | h'
            · exact h' ▸ good_doc_name_html mp
            · exact h' ▸ good_doc_name_pdf mp
          · exact hdocs w h
        · rw [hlen, h1]
          simp only [List.length_append, List.length_cons, List.length_nil]
          omega

theorem candidate_loop_saved_urls (env : Env) (max_pages : Nat)
    (cands : List MenuPage) (st : LoopSt) :
    ∀ sf ∈ (candidate_loop env max_pages cands st).saved_files,
      sf ∈ st.saved_files ∨
        ∃ mp ∈ cands, sf.url = some mp.url ∧ would_save env mp = true := by
  induction cands generalizing st with
  | nil =>
    intro sf hsf
    exact Or.inl hsf
  | cons mp rest ih =>
    intro sf hsf
    unfold candidate_loop at hsf
    by_cases hb : max_pages ≤ st.saved
    · rw [if_pos hb] at hsf
      exact Or.inl hsf
    · rw [if_neg hb] at hsf
      rcases ih (process_candidate env st mp) sf hsf with hin | ⟨mp', hmp', hurl, hws⟩
      · rcases process_candidate_cases env st mp with ⟨h1, _, _⟩ |
          ⟨sf', name, h1, _, _, hurl', _, _, hws'⟩
        · rw [h1] at hin
          exact Or.inl hin
        · rw [h1] at hin
          rcases List.mem_append.mp hin with h | h
          · exact Or.inl h
          · right
            refine ⟨mp, List.mem_cons_self mp rest, ?_, hws'⟩
            rw [List.mem_singleton.mp h]
            exact hurl'
      · exact Or.inr ⟨mp', List.mem_cons_of_mem mp hmp', hurl, hws⟩

theorem apply_write_isDir_mono (w : FsWrite) (fs : DirState) (h : fs.isDir = true) :
    (apply_write fs w).isDir = true := by
  cases w with
  | mkdir => rfl
  | doc name =>
    unfold apply_write
    dsimp only
    split_ifs <;> exact h
  | meta m ok =>
    unfold apply_write
    dsimp only
    split_ifs <;> exact h

theorem apply_writes_isDir_mono (ws : List FsWrite) (fs : DirState)
    (h : fs.isDir = true) : (apply_writes fs ws).isDir = true := by
  induction ws generalizing fs with
  | nil => exact h
  | cons w rest ih => exact ih (apply_write fs w) (apply_write_isDir_mono w fs h)

theorem apply_writes_isDir_of_mkdir (ws : List FsWrite) (fs : DirState)
    (h : FsWrite.mkdir ∈ ws) : (apply_writes fs ws).isDir = true := by
  induction ws generalizing fs with
  | nil => cases h
  | cons w rest ih =>
    rcases List.mem_cons.mp h with h1 | h1
    · subst h1
      exact apply_writes_isDir_mono rest (apply_write fs FsWrite.mkdir) rfl
    · exact ih (apply_write fs w) h1

theorem apply_write_file_mono (w : FsWrite) (fs : DirState) (n : String)
    (h : ∃ e ∈ fs.entries, e.name = n ∧ e.isFile = true) :
    ∃ e ∈ (apply_write fs w).entries, e.name = n ∧ e.isFile = true := by
  obtain ⟨e, he, hn, hf⟩ := h
  cases w with
  | mkdir => exact ⟨e, he, hn, hf⟩
  | meta m ok =>
    unfold apply_write
    dsimp only
    split_ifs <;> exact ⟨e, he, hn, hf⟩
  | doc name =>
    unfold apply_write
    dsimp only
    split_ifs with hany
    · by_cases hb : (e.name == name) = true
      · refine ⟨{ e with isFile := true }, ?_, hn, rfl⟩
        have heq : (fun e : DirEntry =>
            if e.name == name then { e with isFile := true } else e) e
              = { e with isFile := true } := by
          simp [hb]
        exact heq ▸ List.mem_map_of_mem _ he
      · refine ⟨e, ?_, hn, hf⟩
        have heq : (fun e : DirEntry =>
            if e.name == name then { e with isFile := true } else e) e = e := by
          simp [hb]
        exact heq ▸ List.mem_map_of_mem _ he
    · exact ⟨e, List.mem_append_left _ he, hn, hf⟩

theorem apply_writes_file_mono (ws : List FsWrite) (fs : DirState) (n : String)
    (h : ∃ e ∈ fs.entries, e.name = n ∧ e.isFile = true) :
    ∃ e ∈ (apply_writes fs ws).entries, e.name = n ∧ e.isFile = true := by
  induction ws generalizing fs with
  | nil => exact h
  | cons w rest ih => exact ih (apply_write fs w) (apply_write_file_mono w fs n h)

theorem apply_write_doc_file (fs : DirState) (n : String) :
    ∃ e ∈ (apply_write fs (FsWrite.doc n)).entries, e.name = n ∧ e.isFile = true := by
  unfold apply_write
  dsimp only
  split_ifs with hany
  · simp only [List.any_eq_true] at hany
    obtain ⟨e, he, hbeq⟩ := hany
    have hn : e.name = n := by simpa using hbeq
    refine ⟨{ e with isFile := true }, ?_, hn, rfl⟩
    have heq : (fun e : DirEntry =>
        if e.name == n then { e with isFile := true } else e) e
          = { e with isFile := true } := by
      simp [hbeq]
    exact heq ▸ List.mem_map_of_mem _ he
  · exact ⟨{ name := n, isFile := true },
      List.mem_append_right _ (List.mem_singleton_self _), rfl, rfl⟩

theorem apply_writes_doc_file (ws : List FsWrite) (fs : DirState) (n : String)
    (h : FsWrite.doc n ∈ ws) :
    ∃ e ∈ (apply_writes fs ws).entries, e.name = n ∧ e.isFile = true := by
  induction ws generalizing fs with
  | nil => cases h
  | cons w rest ih =>
    rcases List.mem_cons.mp h with h1 | h1
    · subst h1
      exact apply_writes_file_mono rest _ n (apply_write_doc_file fs n)
    · exact ih (apply_write fs w) h1

theorem apply_write_metaFile_of_no_meta (w : FsWrite) (fs : DirState)
    (h : ∀ m, w ≠ FsWrite.meta m true) :
    (apply_write fs w).metaFile = fs.metaFile := by
  cases w with
  | mkdir => rfl
  | doc name =>
    unfold apply_write
    dsimp only
    split_ifs <;> rfl
  | meta m ok =>
    cases ok with
    | true => exact absurd rfl (h m)
    | false => rfl

theorem apply_writes_metaFile_of_no_meta (ws : List FsWrite) (fs : DirState)
    (h : ∀ m, FsWrite.meta m true ∉ ws) :
    (apply_writes fs ws).metaFile = fs.metaFile := by
  induction ws generalizing fs with
  | nil => rfl
  | cons w rest ih =>
    have h1 : (apply_write fs w).metaFile = fs.metaFile :=
      apply_write_metaFile_of_no_meta w fs
        (fun m hm => h m (hm ▸ List.mem_cons_self w rest))
    have h2 : ∀ m, FsWrite.meta m true ∉ rest :=
      fun m hm => h m (List.mem_cons_of_mem w hm)
    rw [show apply_writes fs (w :: rest) = apply_writes (apply_write fs w) rest
      from rfl]
    rw [ih (apply_write fs w) h2, h1]

theorem apply_writes_last_meta (fs : DirState) (ws : List FsWrite) (m : Meta) :
    (apply_writes fs (ws ++ [FsWrite.meta m true])).metaFile = MetaFile.parsed m := by
  unfold apply_writes
  rw [List.foldl_append]
  rfl

theorem process_restaurant_existing (env : Env) (fs : DirState) (cache0 : List String)
    (r : Restaurant) (max_pages : Nat) (res : SiteResult)
    (h : existing_menu_info fs r = some res) :
    process_restaurant env fs cache0 r max_pages
      = { result := res, fetches := [], writes := [], cache := cache0 } := by
  unfold process_restaurant
  rw [h]

theorem process_restaurant_no_website (env : Env) (fs : DirState)
    (cache0 : List String) (r : Restaurant) (max_pages : Nat)
    (hex : existing_menu_info fs r = none) (hw : r.website = none) :
    process_restaurant env fs cache0 r max_pages
      = { result := base_result r ["no_website"], fetches := [], writes := [],
          cache := cache0 } := by
  unfold process_restaurant
  rw [hex, hw]

theorem process_restaurant_fresh (env : Env) (fs : DirState) (cache0 : List String)
    (r : Restaurant) (max_pages : Nat) (base : Url)
    (hex : existing_menu_info fs r = none) (hw : r.website = some base) :
    process_restaurant env fs cache0 r max_pages
      = fresh_process env r base cache0 max_pages := by
  unfold process_restaurant
  rw [hex, hw]

theorem fresh_process_blocked (env : Env) (r : Restaurant) (base : Url)
    (cache0 : List String) (max_pages : Nat)
    (h : env.robotsAllowed base = false) :
    fresh_process env r base cache0 max_pages
      = { result := base_result r ["blocked_by_robots_home"],
          fetches := (fetch_robots cache0 base.host).2,
          writes := [FsWrite.mkdir, FsWrite.meta
            (mk_meta r base env.timestamp false [] ["blocked_by_robots_home"])
            env.metaSaveOk],
          cache := (fetch_robots cache0 base.host).1 } := by
  simp only [fresh_process]
  rw [if_pos (by simp [h])]

theorem fresh_process_unavailable (env : Env) (r : Restaurant) (base : Url)
    (cache0 : List String) (max_pages : Nat)
    (h : env.robotsAllowed base = true) (h2 : (env.fetch base).1 = none) :
    fresh_process env r base cache0 max_pages
      = { result := base_result r ["homepage_unavailable:"
            ++ opt_int_str (env.fetch base).2.2 ++ ":"
            ++ opt_str_str (env.fetch base).2.1],
          fetches := (fetch_robots cache0 base.host).2 ++ [NetEvent.page base],
          writes := [FsWrite.mkdir, FsWrite.meta
            (mk_meta r base env.timestamp false [] ["homepage_unavailable:"
              ++ opt_int_str (env.fetch base).2.2 ++ ":"
              ++ opt_str_str (env.fetch base).2.1])
            env.metaSaveOk],
          cache := (fetch_robots cache0 base.host).1 } := by
  simp only [fresh_process]
  rw [if_neg (by simp [h]), h2]

theorem fresh_process_completed (env : Env) (r : Restaurant) (base : Url)
    (cache0 : List String) (max_pages : Nat) (html : Html)
    (h : env.robotsAllowed base = true) (h2 : (env.fetch base).1 = some html) :
    fresh_process env r base cache0 max_pages
      = completed_run env r base (fetch_robots cache0 base.host).1
          ((fetch_robots cache0 base.host).2 ++ [NetEvent.page base]) html
          max_pages := by
  simp only [fresh_process]
  rw [if_neg (by simp [h]), h2]

theorem completed_run_fields (env : Env) (r : Restaurant) (base : Url)
    (cache1 : List String) (ev0 : List NetEvent) (html : Html) (max_pages : Nat) :
    (completed_run env r base cache1 ev0 html max_pages).result.saved_files
        = (candidate_loop env max_pages (all_candidates env base html)
            (loop_start cache1 ev0)).saved_files ∧
      (completed_run env r base cache1 ev0 html max_pages).result.skipped = false ∧
      (completed_run env r base cache1 ev0 html max_pages).result.found
        = decide (0 < (candidate_loop env max_pages (all_candidates env base html)
            (loop_start cache1 ev0)).saved) ∧
      (completed_run env r base cache1 ev0 html max_pages).writes
        = (candidate_loop env max_pages (all_candidates env base html)
            (loop_start cache1 ev0)).writes
          ++ [FsWrite.meta
            (mk_meta r base env.timestamp
              (decide (0 < (candidate_loop env max_pages
                (all_candidates env base html) (loop_start cache1 ev0)).saved))
              (candidate_loop env max_pages (all_candidates env base html)
                (loop_start cache1 ev0)).saved_files
              (candidate_loop env max_pages (all_candidates env base html)
                (loop_start cache1 ev0)).errors)
            env.metaSaveOk] :=
  ⟨rfl, rfl, rfl, rfl⟩

theorem build_guessed_guessed (base : Url) :
    ∀ mp ∈ build_guessed_menu_pages base, mp.guessed = true := by
  intro mp hmp
  simp only [build_guessed_menu_pages, List.mem_map] at hmp
  obtain ⟨p, _, rfl⟩ := hmp
  rfl

theorem would_save_guessed_false (env : Env) (mp : MenuPage)
    (hg : mp.guessed = true)
    (hext : host_matches_external mp.url.host = false)
    (hpdf : is_pdf_ctype (env.fetch mp.url).2.1 = false)
    (hml : ∀ page, (env.fetch mp.url).1 = some page → is_menu_like page = false) :
    would_save env mp = false := by
  unfold would_save would_save_aux
  rcases hb : (env.fetch mp.url).1 with _ | page
  · rw [if_neg (by simp [hpdf])]
    simp
  · rw [if_neg (by simp [hpdf])]
    dsimp only
    simp [hml page hb, hext, hg]

theorem existing_some_of_meta (fs : DirState) (r : Restaurant) (m : Meta)
    (hdir : fs.isDir = true) (hmf : fs.metaFile = MetaFile.parsed m)
    (hsf : m.saved_files.getD [] ≠ []) :
    ∃ res, existing_menu_info fs r = some res := by
  have hm : existing_from_meta fs r ≠ none := by
    unfold existing_from_meta
    rw [hmf]
    simp [hsf]
  unfold existing_menu_info
  rw [hdir]
  rcases hh : existing_from_meta fs r with _ | res
  · exact absurd hh hm
  · exact ⟨res, rfl⟩

theorem existing_some_of_scan (fs : DirState) (r : Restaurant)
    (hdir : fs.isDir = true) (hscan : scan_saved_files fs ≠ []) :
    ∃ res, existing_menu_info fs r = some res := by
  unfold existing_menu_info
  rw [hdir]
  rcases hh : existing_from_meta fs r with _ | res
  · refine ⟨{ uuid := r.uuid, slug := slug_unique r, name := r.name,
              website := r.website, found := true,
              saved_files := scan_saved_files fs,
              errors := ["skipped_existing_menu_no_meta"], skipped := true }, ?_⟩
    show existing_from_scan fs r = _
    simp only [existing_from_scan]
    rw [if_pos hscan]
  · exact ⟨res, rfl⟩

/-- C1 (amended): for every run of the Site Processor that is not resumed
from an existing output directory, the number of saved documents never
exceeds the configured page budget.  (A resumed result reconstructs
whatever the directory already holds, which a smaller budget does not cap;
see the counterexample.) -/
theorem C1_budget_fresh (env : Env) (fs : DirState) (cache0 : List String)
    (r : Restaurant) (max_pages : Nat)
    (h : (process_restaurant env fs cache0 r max_pages).result.skipped = false) :
    (process_restaurant env fs cache0 r max_pages).result.saved_files.length
      ≤ max_pages := by
  rcases hex : existing_menu_info fs r with _ | res
  · rcases hw : r.website with _ | base
    · rw [process_restaurant_no_website env fs cache0 r max_pages hex hw]
      simp [base_result]
    · rw [process_restaurant_fresh env fs cache0 r max_pages base hex hw]
      by_cases hrob : env.robotsAllowed base = true
      · rcases hf : (env.fetch base).1 with _ | html
        · rw [fresh_process_unavailable env r base cache0 max_pages hrob hf]
          simp [base_result]
        · rw [fresh_process_completed env r base cache0 max_pages html hrob hf]
          obtain ⟨h1, _, _, _⟩ := completed_run_fields env r base
            (fetch_robots cache0 base.host).1
            ((fetch_robots cache0 base.host).2 ++ [NetEvent.page base]) html max_pages
          rw [h1]
          have hlen := candidate_loop_len env max_pages (all_candidates env base html)
            (loop_start (fetch_robots cache0 base.host).1
              ((fetch_robots cache0 base.host).2 ++ [NetEvent.page base])) rfl
          have hbud := candidate_loop_budget env max_pages
            (all_candidates env base html)
            (loop_start (fetch_robots cache0 base.host).1
              ((fetch_robots cache0 base.host).2 ++ [NetEvent.page base]))
            (Nat.zero_le max_pages)
          omega
      · rw [fresh_process_blocked env r base cache0 max_pages
          (by simpa using hrob)]
        simp [base_result]
  · exfalso
    rw [process_restaurant_existing env fs cache0 r max_pages res hex] at h
    have hf : res.skipped = false := h
    rw [existing_skipped fs r res hex] at hf
    cases hf

/-- Witness for C1 at a concrete fresh run: two documents saved under a
budget of two. -/
theorem C1_witness :
    (process_restaurant env_menu empty_dir [] r_example 2).result.skipped = false ∧
      (process_restaurant env_menu empty_dir [] r_example 2).result.saved_files.length
        ≤ 2 :=
  ⟨by decide, C1_budget_fresh env_menu empty_dir [] r_example 2 (by decide)⟩

/-- Counterexample for C1 as frozen: a run with budget 6 saves six
documents; resuming the same directory with budget 5 reconstructs a
`SiteResult` with six saved documents, exceeding the configured budget. -/
theorem C1_counterexample :
    (process_restaurant env_menu
        (apply_writes empty_dir (process_restaurant env_menu empty_dir [] r_example 6).writes)
        [] r_example 5).result.skipped = true ∧
      ¬ ((process_restaurant env_menu
        (apply_writes empty_dir (process_restaurant env_menu empty_dir [] r_example 6).writes)
        [] r_example 5).result.saved_files.length ≤ 5) := by
  decide

/-- C5: in every non-resumed run, `found` is true exactly when at least
one document was written during the run. -/
theorem C5_found_iff_saved (env : Env) (fs : DirState) (cache0 : List String)
    (r : Restaurant) (max_pages : Nat)
    (h : (process_restaurant env fs cache0 r max_pages).result.skipped = false) :
    (process_restaurant env fs cache0 r max_pages).result.found
      = decide (0 < (process_restaurant env fs cache0 r max_pages).result.saved_files.length) := by
  rcases hex : existing_menu_info fs r with _ | res
  · rcases hw : r.website with _ | base
    · rw [process_restaurant_no_website env fs cache0 r max_pages hex hw]
      simp [base_result]
    · rw [process_restaurant_fresh env fs cache0 r max_pages base hex hw]
      by_cases hrob : env.robotsAllowed base = true
      · rcases hf : (env.fetch base).1 with _ | html
        · rw [fresh_process_unavailable env r base cache0 max_pages hrob hf]
          simp [base_result]
        · rw [fresh_process_completed env r base cache0 max_pages html hrob hf]
          obtain ⟨h1, _, h3, _⟩ := completed_run_fields env r base
            (fetch_robots cache0 base.host).1
            ((fetch_robots cache0 base.host).2 ++ [NetEvent.page base]) html max_pages
          rw [h1, h3]
          have hlen := candidate_loop_len env max_pages (all_candidates env base html)
            (loop_start (fetch_robots cache0 base.host).1
              ((fetch_robots cache0 base.host).2 ++ [NetEvent.page base])) rfl
          rw [hlen]
      · rw [fresh_process_blocked env r base cache0 max_pages
          (by simpa using hrob)]
        simp [base_result]
  · exfalso
    rw [process_restaurant_existing env fs cache0 r max_pages res hex] at h
    have hf : res.skipped = false := h
    rw [existing_skipped fs r res hex] at hf
    cases hf

/-- Witness for C5: a robots-blocked run has `found = false` and no saved
documents; a fresh saving run has `found = true` with documents. -/
theorem C5_witness :
    (process_restaurant env_block empty_dir [] r_example 5).result.skipped = false ∧
      (process_restaurant env_block empty_dir [] r_example 5).result.found
        = decide (0 < (process_restaurant env_block empty_dir [] r_example 5).result.saved_files.length) :=
  ⟨by decide, C5_found_iff_saved env_block empty_dir [] r_example 5 (by decide)⟩

/-- C4 (amended): for every non-resumed restaurant that has a website, the
Site Processor records a metadata write attempt regardless of outcome
(robots-blocked, homepage-unavailable, and completed runs alike).  A
restaurant without a website returns before any filesystem access, so no
metadata record is written for it; see the counterexample. -/
theorem C4_metadata_with_website (env : Env) (fs : DirState) (cache0 : List String)
    (r : Restaurant) (max_pages : Nat) (base : Url)
    (hw : r.website = some base)
    (h : (process_restaurant env fs cache0 r max_pages).result.skipped = false) :
    ∃ m ok, FsWrite.meta m ok ∈ (process_restaurant env fs cache0 r max_pages).writes := by
  rcases hex : existing_menu_info fs r with _ | res
  · rw [process_restaurant_fresh env fs cache0 r max_pages base hex hw]
    by_cases hrob : env.robotsAllowed base = true
    · rcases hf : (env.fetch base).1 with _ | html
      · rw [fresh_process_unavailable env r base cache0 max_pages hrob hf]
        exact ⟨mk_meta r base env.timestamp false [] ["homepage_unavailable:"
          ++ opt_int_str (env.fetch base).2.2 ++ ":"
          ++ opt_str_str (env.fetch base).2.1], env.metaSaveOk, by simp⟩
      · rw [fresh_process_completed env r base cache0 max_pages html hrob hf]
        obtain ⟨_, _, _, h4⟩ := completed_run_fields env r base
          (fetch_robots cache0 base.host).1
          ((fetch_robots cache0 base.host).2 ++ [NetEvent.page base]) html max_pages
        rw [h4]
        exact ⟨_, env.metaSaveOk,
          List.mem_append_right _ (List.mem_singleton_self _)⟩
    · rw [fresh_process_blocked env r base cache0 max_pages (by simpa using hrob)]
      exact ⟨mk_meta r base env.timestamp false [] ["blocked_by_robots_home"],
        env.metaSaveOk, by simp⟩
  · exfalso
    rw [process_restaurant_existing env fs cache0 r max_pages res hex] at h
    have hf : res.skipped = false := h
    rw [existing_skipped fs r res hex] at hf
    cases hf

/-- Witness for C4: a robots-blocked fresh run still attempts the
metadata write. -/
theorem C4_witness :
    r_example.website = some ex_url ∧
      (process_restaurant env_block empty_dir [] r_example 5).result.skipped = false ∧
      ∃ m ok, FsWrite.meta m ok ∈ (process_restaurant env_block empty_dir [] r_example 5).writes :=
  ⟨rfl, by decide,
    C4_metadata_with_website env_block empty_dir [] r_example 5 ex_url rfl (by decide)⟩

/-- Counterexample for C4 as frozen: a restaurant without a website is not
resumed, terminates with the `no_website` tag, and writes nothing — in
particular no metadata record. -/
theorem C4_counterexample :
    (process_restaurant env_menu empty_dir [] r_nosite 5).writes = [] ∧
      (process_restaurant env_menu empty_dir [] r_nosite 5).result.skipped = false ∧
      (process_restaurant env_menu empty_dir [] r_nosite 5).result.errors
        = ["no_website"] := by
  decide

/-- C2 (amended): in a non-resumed run, a guessed candidate whose fetched
content is non-PDF and fails `isMenuLike`, whose host does not match a
known external menu host, and whose URL is not also claimed by a
link-derived candidate, is never saved — no saved document carries its
URL.  (On an external menu host the code forces `is_menu_like = True` and
saves even guessed candidates; see the counterexample.) -/
theorem C2_guessed_gate (env : Env) (fs : DirState) (cache0 : List String)
    (r : Restaurant) (max_pages : Nat) (base : Url) (g : MenuPage)
    (hw : r.website = some base)
    (hskip : (process_restaurant env fs cache0 r max_pages).result.skipped = false)
    (hg : g ∈ build_guessed_menu_pages base)
    (hext : host_matches_external g.url.host = false)
    (hpdf : is_pdf_ctype (env.fetch g.url).2.1 = false)
    (hml : ∀ page, (env.fetch g.url).1 = some page → is_menu_like page = false)
    (hnl : ∀ html, (env.fetch base).1 = some html →
      g.url ∉ (discover_menu_links (env.urljoin base) base html).map
        (fun c => c.url)) :
    ∀ sf ∈ (process_restaurant env fs cache0 r max_pages).result.saved_files,
      sf.url ≠ some g.url := by
  rcases hex : existing_menu_info fs r with _ | res
  · rw [process_restaurant_fresh env fs cache0 r max_pages base hex hw]
    by_cases hrob : env.robotsAllowed base = true
    · rcases hf : (env.fetch base).1 with _ | html
      · rw [fresh_process_unavailable env r base cache0 max_pages hrob hf]
        intro sf hsf
        simp [base_result] at hsf
      · rw [fresh_process_completed env r base cache0 max_pages html hrob hf]
        obtain ⟨h1, _, _, _⟩ := completed_run_fields env r base
          (fetch_robots cache0 base.host).1
          ((fetch_robots cache0 base.host).2 ++ [NetEvent.page base]) html max_pages
        rw [h1]
        intro sf hsf hurl
        rcases candidate_loop_saved_urls env max_pages (all_candidates env base html)
            (loop_start (fetch_robots cache0 base.host).1
              ((fetch_robots cache0 base.host).2 ++ [NetEvent.page base]))
            sf hsf with hin | ⟨mp, hmp, hmpurl, hws⟩
        · exact absurd hin (by simp [loop_start])
        · have hmpg : mp.url = g.url := by
            rw [hurl] at hmpurl
            exact Option.some.inj hmpurl.symm
          rcases List.mem_append.mp hmp with hm1 | hm2
          · exact hnl html hf (hmpg ▸ List.mem_map_of_mem (fun c => c.url) hm1)
          · have hmem : mp ∈ build_guessed_menu_pages base :=
              List.mem_of_mem_filter hm2
            have hgg : mp.guessed = true := build_guessed_guessed base mp hmem
            have : would_save env mp = false := by
              apply would_save_guessed_false env mp hgg
              · rw [hmpg]
                exact hext
              · rw [hmpg]
                exact hpdf
              · rw [hmpg]
                exact hml
            rw [this] at hws
            cases hws
    · rw [fresh_process_blocked env r base cache0 max_pages (by simpa using hrob)]
      intro sf hsf
      simp [base_result] at hsf
  · exfalso
    rw [process_restaurant_existing env fs cache0 r max_pages res hex] at hskip
    have hres : res.skipped = false := hskip
    rw [existing_skipped fs r res hex] at hres
    cases hres

/-- Witness for C2 on an ordinary host: the guessed `/menu` candidate
fetches a non-menu-like page and nothing is saved under its URL. -/
theorem C2_witness :
    r_example.website = some ex_url ∧
      (process_restaurant env_plain empty_dir [] r_example 5).result.skipped = false ∧
      g_ex_mp ∈ build_guessed_menu_pages ex_url ∧
      host_matches_external g_ex_mp.url.host = false ∧
      is_pdf_ctype (env_plain.fetch g_ex_mp.url).2.1 = false ∧
      ∀ sf ∈ (process_restaurant env_plain empty_dir [] r_example 5).result.saved_files,
        sf.url ≠ some g_ex_mp.url :=
  ⟨rfl, by decide, by decide, by decide, by decide,
    C2_guessed_gate env_plain empty_dir [] r_example 5 ex_url g_ex_mp rfl
      (by decide) (by decide) (by decide) (by decide)
      (fun page hp => by
        have : page = plain_html := Option.some.inj hp.symm
        rw [this]
        decide)
      (fun html hp => by
        have : html = plain_html := Option.some.inj hp.symm
        rw [this]
        decide)⟩

/-- Counterexample for C2 as frozen ("regardless of the candidate's URL
path or host"): on an external ordering-platform host the guessed `/menu`
candidate is saved although its fetched content fails `isMenuLike`. -/
theorem C2_counterexample :
    g_toast_mp ∈ build_guessed_menu_pages toast_url ∧
      g_toast_mp.guessed = true ∧
      (env_plain.fetch g_toast_mp.url).1 = some plain_html ∧
      is_menu_like plain_html = false ∧
      (process_restaurant env_plain empty_dir [] r_toast 1).result.skipped = false ∧
      ((process_restaurant env_plain empty_dir [] r_toast 1).result.saved_files.map
        (fun sf => sf.url)).contains (some g_toast_mp.url) = true := by
  decide

theorem existing_of_from_meta (fs : DirState) (r : Restaurant) (res : SiteResult)
    (hdir : fs.isDir = true) (h : existing_from_meta fs r = some res) :
    existing_menu_info fs r = some res := by
  unfold existing_menu_info
  rw [hdir, h]
  rfl

/-- C3 (amended): if a run of the Site Processor saved at least one
document, then a second run against the directory produced by the first
run returns `skipped = true` and performs no network fetch at all.
(A zero-result first run leaves a directory that does not trigger the
resume check, so the second run fetches again; see the counterexample.) -/
theorem C3_idempotent_after_save (env : Env) (fs : DirState)
    (cache0 cache1 : List String) (r : Restaurant) (m1 m2 : Nat)
    (h : (process_restaurant env fs cache0 r m1).result.saved_files ≠ []) :
    (process_restaurant env
      (apply_writes fs (process_restaurant env fs cache0 r m1).writes)
      cache1 r m2).result.skipped = true ∧
    (process_restaurant env
      (apply_writes fs (process_restaurant env fs cache0 r m1).writes)
      cache1 r m2).fetches = [] := by
  rcases hex : existing_menu_info fs r with _ | res
  · rcases hw : r.website with _ | base
    · rw [process_restaurant_no_website env fs cache0 r m1 hex hw] at h
      simp [base_result] at h
    · by_cases hrob : env.robotsAllowed base = true
      · rcases hfetch : (env.fetch base).1 with _ | html
        · rw [process_restaurant_fresh env fs cache0 r m1 base hex hw,
            fresh_process_unavailable env r base cache0 m1 hrob hfetch] at h
          simp [base_result] at h
        · rw [process_restaurant_fresh env fs cache0 r m1 base hex hw,
            fresh_process_completed env r base cache0 m1 html hrob hfetch] at h ⊢
          obtain ⟨hsf_eq, _, _, hw_eq⟩ := completed_run_fields env r base
            (fetch_robots cache0 base.host).1
            ((fetch_robots cache0 base.host).2 ++ [NetEvent.page base]) html m1
          rw [hsf_eq] at h
          rw [hw_eq]
          obtain ⟨ds, hds_eq, hds_docs, hds_len⟩ := candidate_loop_shape env m1
            (all_candidates env base html)
            (loop_start (fetch_robots cache0 base.host).1
              ((fetch_robots cache0 base.host).2 ++ [NetEvent.page base]))
          rcases ds with _ | ⟨w0, ds'⟩
          · exfalso
            apply h
            have : (candidate_loop env m1 (all_candidates env base html)
                (loop_start (fetch_robots cache0 base.host).1
                  ((fetch_robots cache0 base.host).2 ++ [NetEvent.page base]))).saved_files.length = 0 := by
              rw [hds_len]
              rfl
            exact List.length_eq_zero.mp this
          · obtain ⟨n, hw0, hgood⟩ := hds_docs w0 (List.mem_cons_self w0 ds')
            have hdocmem : FsWrite.doc n ∈ (candidate_loop env m1
                (all_candidates env base html)
                (loop_start (fetch_robots cache0 base.host).1
                  ((fetch_robots cache0 base.host).2 ++ [NetEvent.page base]))).writes
                ++ [FsWrite.meta
                  (mk_meta r base env.timestamp
                    (decide (0 < (candidate_loop env m1 (all_candidates env base html)
                      (loop_start (fetch_robots cache0 base.host).1
                        ((fetch_robots cache0 base.host).2 ++ [NetEvent.page base]))).saved))
                    (candidate_loop env m1 (all_candidates env base html)
                      (loop_start (fetch_robots cache0 base.host).1
                        ((fetch_robots cache0 base.host).2 ++ [NetEvent.page base]))).saved_files
                    (candidate_loop env m1 (all_candidates env base html)
                      (loop_start (fetch_robots cache0 base.host).1
                        ((fetch_robots cache0 base.host).2 ++ [NetEvent.page base]))).errors)
                  env.metaSaveOk] := by
              apply List.mem_append_left
              rw [hds_eq]
              exact List.mem_append_right _ (hw0 ▸ List.mem_cons_self w0 ds')
            have hmkdir : FsWrite.mkdir ∈ (candidate_loop env m1
                (all_candidates env base html)
                (loop_start (fetch_robots cache0 base.host).1
                  ((fetch_robots cache0 base.host).2 ++ [NetEvent.page base]))).writes := by
              rw [hds_eq]
              exact List.mem_append_left _ (List.mem_singleton_self _)
            have hdir2 : (apply_writes fs
                ((candidate_loop env m1 (all_candidates env base html)
                  (loop_start (fetch_robots cache0 base.host).1
                    ((fetch_robots cache0 base.host).2 ++ [NetEvent.page base]))).writes
                  ++ [FsWrite.meta
                    (mk_meta r base env.timestamp
                      (decide (0 < (candidate_loop env m1 (all_candidates env base html)
                        (loop_start (fetch_robots cache0 base.host).1
                          ((fetch_robots cache0 base.host).2 ++ [NetEvent.page base]))).saved))
                      (candidate_loop env m1 (all_candidates env base html)
                        (loop_start (fetch_robots cache0 base.host).1
                          ((fetch_robots cache0 base.host).2 ++ [NetEvent.page base]))).saved_files
                      (candidate_loop env m1 (all_candidates env base html)
                        (loop_start (fetch_robots cache0 base.host).1
                          ((fetch_robots cache0 base.host).2 ++ [NetEvent.page base]))).errors)
                    env.metaSaveOk])).isDir = true :=
              apply_writes_isDir_of_mkdir _ fs (List.mem_append_left _ hmkdir)
            have hsome : ∃ res2, existing_menu_info (apply_writes fs
                ((candidate_loop env m1 (all_candidates env base html)
                  (loop_start (fetch_robots cache0 base.host).1
                    ((fetch_robots cache0 base.host).2 ++ [NetEvent.page base]))).writes
                  ++ [FsWrite.meta
                    (mk_meta r base env.timestamp
                      (decide (0 < (candidate_loop env m1 (all_candidates env base html)
                        (loop_start (fetch_robots cache0 base.host).1
                          ((fetch_robots cache0 base.host).2 ++ [NetEvent.page base]))).saved))
                      (candidate_loop env m1 (all_candidates env base html)
                        (loop_start (fetch_robots cache0 base.host).1
                          ((fetch_robots cache0 base.host).2 ++ [NetEvent.page base]))).saved_files
                      (candidate_loop env m1 (all_candidates env base html)
                        (loop_start (fetch_robots cache0 base.host).1
                          ((fetch_robots cache0 base.host).2 ++ [NetEvent.page base]))).errors)
                    env.metaSaveOk])) r = some res2 := by
              by_cases hok : env.metaSaveOk = true
              · rw [hok]
                refine existing_some_of_meta _ r
                  (mk_meta r base env.timestamp
                    (decide (0 < (candidate_loop env m1 (all_candidates env base html)
                      (loop_start (fetch_robots cache0 base.host).1
                        ((fetch_robots cache0 base.host).2 ++ [NetEvent.page base]))).saved))
                    (candidate_loop env m1 (all_candidates env base html)
                      (loop_start (fetch_robots cache0 base.host).1
                        ((fetch_robots cache0 base.host).2 ++ [NetEvent.page base]))).saved_files
                    (candidate_loop env m1 (all_candidates env base html)
                      (loop_start (fetch_robots cache0 base.host).1
                        ((fetch_robots cache0 base.host).2 ++ [NetEvent.page base]))).errors)
                  (by rw [hok] at hdir2; exact hdir2)
                  (apply_writes_last_meta fs _ _) ?_
                simp only [mk_meta, Option.getD_some]
                exact h
              · have hok' : env.metaSaveOk = false := by
                  simpa using hok
                rw [hok'] at hdir2 ⊢
                have hnometa : ∀ m', FsWrite.meta m' true ∉
                    ((candidate_loop env m1 (all_candidates env base html)
                      (loop_start (fetch_robots cache0 base.host).1
                        ((fetch_robots cache0 base.host).2 ++ [NetEvent.page base]))).writes
                      ++ [FsWrite.meta
                        (mk_meta r base env.timestamp
                          (decide (0 < (candidate_loop env m1 (all_candidates env base html)
                            (loop_start (fetch_robots cache0 base.host).1
                              ((fetch_robots cache0 base.host).2 ++ [NetEvent.page base]))).saved))
                          (candidate_loop env m1 (all_candidates env base html)
                            (loop_start (fetch_robots cache0 base.host).1
                              ((fetch_robots cache0 base.host).2 ++ [NetEvent.page base]))).saved_files
                          (candidate_loop env m1 (all_candidates env base html)
                            (loop_start (fetch_robots cache0 base.host).1
                              ((fetch_robots cache0 base.host).2 ++ [NetEvent.page base]))).errors)
                        false]) := by
                  intro m' hm'
                  rcases List.mem_append.mp hm' with hcase | hcase
                  · rw [hds_eq] at hcase
                    rcases List.mem_append.mp hcase with hcase2 | hcase2
                    · have : FsWrite.meta m' true = FsWrite.mkdir :=
                        List.mem_singleton.mp hcase2
                      cases this
                    · obtain ⟨n', hn', _⟩ := hds_docs _ hcase2
                      cases hn'
                  · have := List.mem_singleton.mp hcase
                    cases this
                obtain ⟨e, he, hn, hfile⟩ := apply_writes_doc_file _ fs n hdocmem
                rw [hok'] at he
                apply existing_some_of_scan _ r hdir2
                apply scan_saved_files_ne_nil _ e he hfile
                rw [hn]
                rcases hgood with hg1 | hg1
                · exact Or.inl hg1
                · exact Or.inr (Or.inr hg1)
            obtain ⟨res2, hres2⟩ := hsome
            rw [process_restaurant_existing env _ cache1 r m2 res2 hres2]
            exact ⟨existing_skipped _ r res2 hres2, rfl⟩
      · rw [process_restaurant_fresh env fs cache0 r m1 base hex hw,
          fresh_process_blocked env r base cache0 m1 (by simpa using hrob)] at h
        simp [base_result] at h
  · have hwrites : (process_restaurant env fs cache0 r m1).writes = [] := by
      rw [process_restaurant_existing env fs cache0 r m1 res hex]
    rw [hwrites]
    have ha : apply_writes fs [] = fs := rfl
    rw [ha, process_restaurant_existing env fs cache1 r m2 res hex]
    exact ⟨existing_skipped fs r res hex, rfl⟩

/-- Witness for C3: a budget-1 run that saves one document; its directory
resumes with no fetch. -/
theorem C3_witness :
    (process_restaurant env_menu empty_dir [] r_example 1).result.saved_files ≠ [] ∧
      ((process_restaurant env_menu
        (apply_writes empty_dir (process_restaurant env_menu empty_dir [] r_example 1).writes)
        [] r_example 1).result.skipped = true ∧
      (process_restaurant env_menu
        (apply_writes empty_dir (process_restaurant env_menu empty_dir [] r_example 1).writes)
        [] r_example 1).fetches = []) :=
  ⟨by decide, C3_idempotent_after_save env_menu empty_dir [] [] r_example 1 1 (by decide)⟩

/-- Counterexample for C3 as frozen: a robots-blocked first run saves
nothing; the second run against the unchanged directory is not skipped and
fetches `robots.txt` again. -/
theorem C3_counterexample :
    (process_restaurant env_block
        (apply_writes empty_dir (process_restaurant env_block empty_dir [] r_example 5).writes)
        [] r_example 5).result.skipped = false ∧
      (process_restaurant env_block
        (apply_writes empty_dir (process_restaurant env_block empty_dir [] r_example 5).writes)
        [] r_example 5).fetches ≠ [] := by
  decide

theorem insert_desc_perm (x : MenuPage) (l : List MenuPage) :
    (insert_desc x l).Perm (x :: l) := by
  induction l with
  | nil => exact List.Perm.refl _
  | cons y rest ih =>
    unfold insert_desc
    split_ifs with hc
    · exact List.Perm.refl _
    · exact (List.Perm.cons y ih).trans (List.Perm.swap x y rest)

theorem sort_desc_perm (l : List MenuPage) : (sort_desc l).Perm l := by
  induction l with
  | nil => exact List.Perm.refl _
  | cons x rest ih =>
    show (insert_desc x (sort_desc rest)).Perm (x :: rest)
    exact (insert_desc_perm x (sort_desc rest)).trans (List.Perm.cons x ih)

theorem anchor_scores_append_one (resolve : String → Url) (ans : List Anchor)
    (a : Anchor) (u : Url) :
    anchor_scores resolve (ans ++ [a]) u
      = anchor_scores resolve ans u ++
        (match anchor_abs_score resolve a with
         | none => []
         | some vs => if vs.1 = u then [vs.2] else []) := by
  unfold anchor_scores
  rw [List.filterMap_append]
  congr 1
  simp only [List.filterMap_cons, List.filterMap_nil]
  rcases h : anchor_abs_score resolve a with _ | vs
  · rfl
  · dsimp only
    split_ifs <;> rfl

theorem pairwise_url_unique (l : List MenuPage)
    (h : l.Pairwise (fun c c' => c.url ≠ c'.url)) :
    ∀ c ∈ l, ∀ c' ∈ l, c.url = c'.url → c = c' := by
  induction l with
  | nil =>
    intro c hc
    cases hc
  | cons x rest ih =>
    intro c hc c' hc' he
    obtain ⟨hhead, htail⟩ := List.pairwise_cons.mp h
    rcases List.mem_cons.mp hc with rfl | hc1
    · rcases List.mem_cons.mp hc' with rfl | hc1'
      · rfl
      · exact absurd he (hhead c' hc1')
    · rcases List.mem_cons.mp hc' with rfl | hc1'
      · exact absurd he.symm (hhead c hc1)
      · exact ih htail c hc1 c' hc1' he

theorem cand_inv_step (resolve : String → Url) (ans : List Anchor) (a : Anchor)
    (acc : List MenuPage) (h : cand_inv resolve ans acc) :
    cand_inv resolve (ans ++ [a]) (discover_step resolve acc a) := by
  obtain ⟨hpw, hmax, hneg⟩ := h
  rcases ha : anchor_abs_score resolve a with _ | vs
  · have hstep : discover_step resolve acc a = acc := by
      unfold discover_step
      rw [ha]
    have hsc : ∀ u, anchor_scores resolve (ans ++ [a]) u
        = anchor_scores resolve ans u := by
      intro u
      rw [anchor_scores_append_one, ha]
      simp
    rw [hstep]
    refine ⟨hpw, ?_, ?_⟩
    · intro c hc
      rw [hsc]
      exact hmax c hc
    · intro u hu
      rw [hsc]
      exact hneg u hu
  · obtain ⟨u_a, s_a⟩ := vs
    have hsceq : anchor_scores resolve (ans ++ [a]) u_a
        = anchor_scores resolve ans u_a ++ [s_a] := by
      rw [anchor_scores_append_one, ha]
      simp
    have hscne : ∀ u, ¬ (u_a = u) → anchor_scores resolve (ans ++ [a]) u
        = anchor_scores resolve ans u := by
      intro u hne
      rw [anchor_scores_append_one, ha]
      simp [hne]
    by_cases hpos : s_a ≤ 0
    · have hstep : discover_step resolve acc a = acc := by
        unfold discover_step
        rw [ha]
        dsimp only
        rw [if_pos hpos]
      rw [hstep]
      refine ⟨hpw, ?_, ?_⟩
      · intro c hc
        obtain ⟨hmem, hub, hcpos⟩ := hmax c hc
        by_cases hcu : u_a = c.url
        · rw [← hcu] at hmem hub ⊢
          rw [hsceq]
          refine ⟨List.mem_append_left _ hmem, ?_, hcpos⟩
          intro s hs
          rcases List.mem_append.mp hs with hs1 | hs1
          · exact hub s hs1
          · rw [List.mem_singleton.mp hs1]
            omega
        · rw [hscne c.url hcu]
          exact ⟨hmem, hub, hcpos⟩
      · intro u hu s hs
        by_cases hcu : u_a = u
        · subst hcu
          rw [hsceq] at hs
          rcases List.mem_append.mp hs with hs1 | hs1
          · exact hneg u_a hu s hs1
          · rw [List.mem_singleton.mp hs1]
            exact hpos
        · rw [hscne u hcu] at hs
          exact hneg u hu s hs
    · push_neg at hpos
      rcases hfind : acc.find? (fun c => decide (c.url = u_a)) with _ | old
      · have hstep : discover_step resolve acc a
            = acc ++ [anchor_new_mp a u_a s_a] := by
          unfold discover_step
          rw [ha]
          dsimp only
          rw [if_neg (by omega), hfind]
          rfl
        have hnotin : ∀ c ∈ acc, ¬ (c.url = u_a) := by
          intro c hc
          have := List.find?_eq_none.mp hfind c hc
          simpa using this
        rw [hstep]
        refine ⟨?_, ?_, ?_⟩
        · apply List.pairwise_append.mpr
          refine ⟨hpw, List.pairwise_singleton _ _, ?_⟩
          intro c hc c' hc'
          rw [List.mem_singleton.mp hc']
          exact fun he => hnotin c hc he
        · intro c hc
          rcases List.mem_append.mp hc with hc1 | hc1
          · obtain ⟨hmem, hub, hcpos⟩ := hmax c hc1
            have hcu : ¬ (u_a = c.url) := fun he => hnotin c hc1 he.symm
            rw [hscne c.url hcu]
            exact ⟨hmem, hub, hcpos⟩
          · rw [List.mem_singleton.mp hc1]
            refine ⟨?_, ?_, hpos⟩
            · show s_a ∈ anchor_scores resolve (ans ++ [a]) u_a
              rw [hsceq]
              exact List.mem_append_right _ (List.mem_singleton_self _)
            · intro s hs
              rw [show (anchor_new_mp a u_a s_a).url = u_a from rfl, hsceq] at hs
              rcases List.mem_append.mp hs with hs1 | hs1
              · have h0 := hneg u_a (fun c hc he => hnotin c hc he) s hs1
                show s ≤ s_a
                omega
              · rw [List.mem_singleton.mp hs1]
                show s_a ≤ s_a
                omega
        · intro u hu s hs
          have humem : ∀ c ∈ acc, c.url ≠ u :=
            fun c hc => hu c (List.mem_append_left _ hc)
          have hneu : ¬ (u_a = u) := by
            intro he
            exact hu _ (List.mem_append_right _ (List.mem_singleton_self _)) he
          rw [hscne u hneu] at hs
          exact hneg u humem s hs
      · have hold_mem : old ∈ acc := List.mem_of_find?_eq_some hfind
        have hold_url : old.url = u_a := by
          have := List.find?_some hfind
          simpa using this
        by_cases hlt : old.score < s_a
        · have hstep : discover_step resolve acc a
              = acc.map (fun c => if c.url = u_a then anchor_new_mp a u_a s_a else c) := by
            unfold discover_step
            rw [ha]
            dsimp only
            rw [if_neg (by omega), hfind]
            dsimp only
            rw [if_pos hlt]
            rfl
          have hmapurl : ∀ c : MenuPage, ((fun c =>
              if c.url = u_a then anchor_new_mp a u_a s_a else c) c).url = c.url := by
            intro c
            by_cases hcu : c.url = u_a
            · simp [hcu, anchor_new_mp]
            · simp [hcu]
          rw [hstep]
          refine ⟨?_, ?_, ?_⟩
          · rw [List.pairwise_map]
            apply hpw.imp
            intro c c' hcc
            rw [hmapurl c, hmapurl c']
            exact hcc
          · intro c hc
            rw [List.mem_map] at hc
            obtain ⟨c0, hc0, hc0e⟩ := hc
            by_cases hcu : c0.url = u_a
            · rw [if_pos hcu] at hc0e
              subst hc0e
              have hold_eq : c0 = old :=
                pairwise_url_unique acc hpw c0 hc0 old hold_mem
                  (by rw [hcu, hold_url])
              obtain ⟨_, hub, _⟩ := hmax old hold_mem
              refine ⟨?_, ?_, hpos⟩
              · show s_a ∈ anchor_scores resolve (ans ++ [a]) u_a
                rw [hsceq]
                exact List.mem_append_right _ (List.mem_singleton_self _)
              · intro s hs
                have : s ∈ anchor_scores resolve (ans ++ [a]) u_a := hs
                rw [hsceq] at this
                rcases List.mem_append.mp this with hs1 | hs1
                · have h0 := hub s (by rw [hold_url]; exact hs1)
                  show s ≤ s_a
                  omega
                · rw [List.mem_singleton.mp hs1]
                  show s_a ≤ s_a
                  omega
            · rw [if_neg hcu] at hc0e
              subst hc0e
              obtain ⟨hmem, hub, hcpos⟩ := hmax c0 hc0
              have hne : ¬ (u_a = c0.url) := fun he => hcu he.symm
              rw [hscne c0.url hne]
              exact ⟨hmem, hub, hcpos⟩
          · intro u hu s hs
            have humem : ∀ c ∈ acc, c.url ≠ u := by
              intro c hc he
              apply hu ((fun c =>
                if c.url = u_a then anchor_new_mp a u_a s_a else c) c)
                (List.mem_map_of_mem _ hc)
              rw [hmapurl c]
              exact he
            have hneu : ¬ (u_a = u) := by
              intro he
              exact humem old hold_mem (by rw [hold_url, he])
            rw [hscne u hneu] at hs
            exact hneg u humem s hs
        · have hstep : discover_step resolve acc a = acc := by
            unfold discover_step
            rw [ha]
            dsimp only
            rw [if_neg (by omega), hfind]
            dsimp only
            rw [if_neg hlt]
          rw [hstep]
          refine ⟨hpw, ?_, ?_⟩
          · intro c hc
            obtain ⟨hmem, hub, hcpos⟩ := hmax c hc
            by_cases hcu : u_a = c.url
            · have hceq : c = old :=
                pairwise_url_unique acc hpw c hc old hold_mem
                  (by rw [← hcu, hold_url])
            -- c = old, scores extended by s_a ≤ old.score
              rw [← hcu] at hmem hub ⊢
              rw [hsceq]
              refine ⟨List.mem_append_left _ hmem, ?_, hcpos⟩
              intro s hs
              rcases List.mem_append.mp hs with hs1 | hs1
              · exact hub s hs1
              · rw [List.mem_singleton.mp hs1]
                rw [hceq]
                omega
            · rw [hscne c.url hcu]
              exact ⟨hmem, hub, hcpos⟩
          · intro u hu s hs
            have hneu : ¬ (u_a = u) := by
              intro he
              exact hu old hold_mem (by rw [hold_url, he])
            rw [hscne u hneu] at hs
            exact hneg u hu s hs

theorem cand_inv_fold (resolve : String → Url) (ans done : List Anchor)
    (acc : List MenuPage) (h : cand_inv resolve done acc) :
    cand_inv resolve (done ++ ans) (ans.foldl (discover_step resolve) acc) := by
  induction ans generalizing done acc with
  | nil => simpa using h
  | cons a rest ih =>
    have h1 := cand_inv_step resolve done a acc h
    have h2 := ih (done ++ [a]) (discover_step resolve acc a) h1
    rw [List.append_assoc] at h2
    simpa using h2

theorem cand_inv_anchors (resolve : String → Url) (html : Html) :
    cand_inv resolve html.anchors (html.anchors.foldl (discover_step resolve) []) := by
  have h0 : cand_inv resolve [] [] := by
    refine ⟨List.Pairwise.nil, ?_, ?_⟩
    · intro c hc
      cases hc
    · intro u _ s hs
      simp [anchor_scores] at hs
  have h1 := cand_inv_fold resolve html.anchors [] [] h0
  simpa using h1

theorem dict_set_map_url (mp c : MenuPage) :
    ((fun c => if c.url = mp.url then mp else c) c).url = c.url := by
  by_cases h : c.url = mp.url
  · simp [h]
  · simp [h]

theorem dict_set_mem_self (acc : List MenuPage) (mp : MenuPage) :
    mp ∈ dict_set acc mp := by
  unfold dict_set
  split_ifs with hany
  · simp only [List.any_eq_true] at hany
    obtain ⟨c0, hc0, hc0u⟩ := hany
    have heq : (fun c => if c.url = mp.url then mp else c) c0 = mp := by
      show (if c0.url = mp.url then mp else c0) = mp
      rw [if_pos (by simpa using hc0u)]
    have hmem := List.mem_map_of_mem (fun c => if c.url = mp.url then mp else c) hc0
    rw [heq] at hmem
    exact hmem
  · exact List.mem_append_right _ (List.mem_singleton_self _)

theorem dict_set_mem_elim (acc : List MenuPage) (mp : MenuPage) (c : MenuPage)
    (hc : c ∈ dict_set acc mp) : c = mp ∨ (c ∈ acc ∧ c.url ≠ mp.url) := by
  unfold dict_set at hc
  split_ifs at hc with hany
  · simp only [List.mem_map] at hc
    obtain ⟨c0, hc0, hc0e⟩ := hc
    by_cases hcu : c0.url = mp.url
    · rw [if_pos hcu] at hc0e
      exact Or.inl hc0e.symm
    · rw [if_neg hcu] at hc0e
      subst hc0e
      exact Or.inr ⟨hc0, hcu⟩
  · rcases List.mem_append.mp hc with hc1 | hc1
    · refine Or.inr ⟨hc1, ?_⟩
      intro he
      apply hany
      simp only [List.any_eq_true]
      exact ⟨c, hc1, by simpa using he⟩
    · exact Or.inl (List.mem_singleton.mp hc1)

theorem dict_set_pairwise (acc : List MenuPage) (mp : MenuPage)
    (h : acc.Pairwise (fun c c' => c.url ≠ c'.url)) :
    (dict_set acc mp).Pairwise (fun c c' => c.url ≠ c'.url) := by
  unfold dict_set
  split_ifs with hany
  · rw [List.pairwise_map]
    apply h.imp
    intro c c' hcc
    rw [dict_set_map_url mp c, dict_set_map_url mp c']
    exact hcc
  · apply List.pairwise_append.mpr
    refine ⟨h, List.pairwise_singleton _ _, ?_⟩
    intro c hc c' hc'
    rw [List.mem_singleton.mp hc']
    intro he
    apply hany
    simp only [List.any_eq_true]
    exact ⟨c, hc, by simpa using he⟩

theorem discover_candidates_pairwise (resolve : String → Url) (base : Url)
    (html : Html) :
    (discover_candidates resolve base html).Pairwise (fun c c' => c.url ≠ c'.url) := by
  unfold discover_candidates
  have h := (cand_inv_anchors resolve html).1
  split_ifs with hml
  · exact dict_set_pairwise _ _ h
  · exact h

theorem discover_candidates_max (resolve : String → Url) (base : Url) (html : Html)
    (u : Url) (c : MenuPage)
    (hnb : ¬ (u = base ∧ is_menu_like html = true))
    (hc : c ∈ discover_candidates resolve base html) (hcu : c.url = u) :
    c.score ∈ anchor_scores resolve html.anchors u ∧
      ∀ s ∈ anchor_scores resolve html.anchors u, s ≤ c.score := by
  obtain ⟨hpw, hmax, hneg⟩ := cand_inv_anchors resolve html
  unfold discover_candidates at hc
  split_ifs at hc with hml
  · rcases dict_set_mem_elim _ _ c hc with hmp | ⟨hc1, hne⟩
    · exfalso
      apply hnb
      refine ⟨?_, hml⟩
      rw [← hcu, hmp]
    · have h1 := hmax c hc1
      rw [hcu] at h1
      exact ⟨h1.1, h1.2.1⟩
  · have h1 := hmax c hc
    rw [hcu] at h1
    exact ⟨h1.1, h1.2.1⟩

theorem discover_links_mem (resolve : String → Url) (base : Url) (html : Html)
    (c : MenuPage) (hc : c ∈ discover_menu_links resolve base html) :
    c ∈ discover_candidates resolve base html := by
  unfold discover_menu_links at hc
  exact (sort_desc_perm _).mem_iff.mp (List.take_subset 12 _ hc)

theorem discover_links_pairwise (resolve : String → Url) (base : Url) (html : Html) :
    (discover_menu_links resolve base html).Pairwise (fun c c' => c.url ≠ c'.url) := by
  unfold discover_menu_links
  have h1 := discover_candidates_pairwise resolve base html
  have h2 : (sort_desc (discover_candidates resolve base html)).Pairwise
      (fun c c' => c.url ≠ c'.url) :=
    ((sort_desc_perm _).pairwise_iff (fun h => Ne.symm h)).mpr h1
  exact h2.sublist (List.take_sublist 12 _)

theorem pairwise_countP_le_one (l : List MenuPage) (u : Url)
    (h : l.Pairwise (fun c c' => c.url ≠ c'.url)) :
    l.countP (fun c => decide (c.url = u)) ≤ 1 := by
  induction l with
  | nil => simp
  | cons c rest ih =>
    obtain ⟨hhead, htail⟩ := List.pairwise_cons.mp h
    rw [List.countP_cons]
    by_cases hc : c.url = u
    · have hzero : rest.countP (fun c => decide (c.url = u)) = 0 := by
        rw [List.countP_eq_zero]
        intro c' hc'
        simp only [decide_eq_true_eq]
        intro he
        exact hhead c' hc' (hc.trans he.symm)
      rw [hzero]
      simp [hc]
    · have h1 := ih htail
      simp only [hc]
      simpa using h1

/-- C8 (amended): in the candidate generator's output there is at most one
candidate per absolute URL, and — except for the homepage URL when the
homepage itself is menu-like, whose injected candidate overrides the
anchor-derived score with 5 — a candidate's relevance score is the maximum
of the scores computed for the anchors resolving to its URL. -/
theorem C8_dedup_max (resolve : String → Url) (base_url : Url) (html : Html)
    (u : Url) (hnb : ¬ (u = base_url ∧ is_menu_like html = true)) :
    (discover_menu_links resolve base_url html).countP
        (fun c => decide (c.url = u)) ≤ 1 ∧
      ∀ c ∈ discover_menu_links resolve base_url html, c.url = u →
        c.score ∈ anchor_scores resolve html.anchors u ∧
          ∀ s ∈ anchor_scores resolve html.anchors u, s ≤ c.score := by
  constructor
  · exact pairwise_countP_le_one _ u (discover_links_pairwise resolve base_url html)
  · intro c hc hcu
    exact discover_candidates_max resolve base_url html u c hnb
      (discover_links_mem resolve base_url html c hc) hcu

/-- Witness for C8: two anchors to `/menu` scoring 6 and 8 collapse to a
single candidate carrying 8. -/
theorem C8_witness :
    ¬ ((g_ex = ex_url) ∧ is_menu_like html_c8w = true) ∧
      ((discover_menu_links res_path ex_url html_c8w).countP
          (fun c => decide (c.url = g_ex)) ≤ 1 ∧
        ∀ c ∈ discover_menu_links res_path ex_url html_c8w, c.url = g_ex →
          c.score ∈ anchor_scores res_path html_c8w.anchors g_ex ∧
            ∀ s ∈ anchor_scores res_path html_c8w.anchors g_ex, s ≤ c.score) :=
  ⟨by decide, C8_dedup_max res_path ex_url html_c8w g_ex (by decide)⟩

/-- Counterexample for C8 as frozen: two anchors resolving to the homepage
URL score 10 each, but because the menu-like homepage injects its own
candidate, the single candidate for that URL carries score 5, not the
anchors' maximum 10. -/
theorem C8_counterexample :
    anchor_scores res_base html_c8.anchors ex_url = [10, 10] ∧
      (discover_menu_links res_base ex_url html_c8).countP
        (fun c => decide (c.url = ex_url)) = 1 ∧
      (discover_menu_links res_base ex_url html_c8).all
        (fun c => !(decide (c.url = ex_url)) || decide (c.score = 5)) = true ∧
      ¬ ((5 : Int) = 10) := by
  decide

/-- C9 (amended): when the homepage is menu-like, every output candidate
for the homepage URL is the injected one (label "menu", score exactly 5,
not guessed) — replacing any anchor-derived candidate regardless of its
score — and the injected candidate appears in the output whenever the
site yields at most 12 candidates in total (the top-12 truncation can
otherwise drop it). -/
theorem C9_homepage_injection (resolve : String → Url) (base_url : Url) (html : Html)
    (hml : is_menu_like html = true) :
    (∀ c ∈ discover_menu_links resolve base_url html, c.url = base_url →
        c.label = "menu" ∧ c.score = 5 ∧ c.guessed = false) ∧
      ((discover_candidates resolve base_url html).length ≤ 12 →
        ∃ c ∈ discover_menu_links resolve base_url html,
          c.url = base_url ∧ c.label = "menu" ∧ c.score = 5) := by
  constructor
  · intro c hc hcu
    have h1 := discover_links_mem resolve base_url html c hc
    unfold discover_candidates at h1
    rw [if_pos hml] at h1
    rcases dict_set_mem_elim _ _ c h1 with hmp | ⟨_, hne⟩
    · rw [hmp]
      exact ⟨rfl, rfl, rfl⟩
    · exact absurd hcu hne
  · intro hlen
    refine ⟨{ url := base_url, label := "menu", score := 5, guessed := false },
      ?_, rfl, rfl, rfl⟩
    unfold discover_menu_links
    have hmem : (⟨base_url, "menu", 5, false⟩ : MenuPage) ∈
        discover_candidates resolve base_url html := by
      unfold discover_candidates
      rw [if_pos hml]
      exact dict_set_mem_self _ _
    have hperm := sort_desc_perm (discover_candidates resolve base_url html)
    have hlen2 : (sort_desc (discover_candidates resolve base_url html)).length ≤ 12 := by
      rw [hperm.length_eq]
      exact hlen
    rw [List.take_of_length_le hlen2]
    exact hperm.mem_iff.mpr hmem

/-- Witness for C9: an anchor-free menu-like homepage yields exactly the
injected candidate. -/
theorem C9_witness :
    is_menu_like menu_html = true ∧
      (discover_candidates res_base ex_url menu_html).length ≤ 12 ∧
      (∀ c ∈ discover_menu_links res_base ex_url menu_html, c.url = ex_url →
        c.label = "menu" ∧ c.score = 5 ∧ c.guessed = false) ∧
      ∃ c ∈ discover_menu_links res_base ex_url menu_html,
        c.url = ex_url ∧ c.label = "menu" ∧ c.score = 5 :=
  ⟨by decide, by decide,
    (C9_homepage_injection res_base ex_url menu_html (by decide)).1,
    (C9_homepage_injection res_base ex_url menu_html (by decide)).2 (by decide)⟩

/-- Counterexample for C9 as frozen: with 13 score-6 anchors, the
menu-like homepage's injected score-5 candidate is pushed out of the
top 12, so no candidate for the homepage URL appears at all. -/
theorem C9_counterexample :
    is_menu_like html_c9 = true ∧
      (discover_menu_links res_path ex_url html_c9).all
        (fun c => !(decide (c.url = ex_url))) = true ∧
      (discover_menu_links res_path ex_url html_c9).length = 12 := by
  decide
